import Mathlib

/-!
# hlmux: a verification development

Shallow embedding of the Go package `hlmux` (files `reader.go`, `conn.go`,
`mux.go`): the packet reader, the per-client connection and the multiplexer's
`process` step, followed by theorems about them.

Conventions.
* A Go `byte` is a `Fin 256`; `uint16`, `uint32`, `uint64` are `Nat` reduced
  modulo `2^16`, `2^32`, `2^64` where a conversion or an overflow can occur.
* A Go pointer `*Conn` is an index into a heap `Nat → Conn`; a nil pointer is
  `none`.
* The network is an explicit environment (`Env`): whether a dial or a write
  succeeds is decided there, and what the code does to the outside world is
  recorded as a list of `Event`s.
* Goroutines are interleaved at the places where the code takes a lock or
  blocks: the steps of two workers of `process` (`Mux.runWorkers`), and the
  forwarder of a connection taken up at the return of its blocking read
  (`Mux.forwarderResumed`) after `process` or between its lines 200 and 202
  (`Mux.processHead`, `Mux.processTail`).
-/

namespace Hlmux

/-- A Go `byte`. -/
abbrev Byte := Fin 256

/-! ## encoding/binary -/

/-- Conversion `byte(v)` of an unsigned integer: the low 8 bits. -/
def toByte (v : Nat) : Byte := ⟨v % 256, Nat.mod_lt v (by decide)⟩

/-- Go `binary.LittleEndian.Uint32(b)`, on the first four bytes of `b`
(absent bytes read as 0; every caller passes exactly four bytes). -/
def LittleEndian.Uint32 (b : List Byte) : Nat :=
  (b.getD 0 0).val + (b.getD 1 0).val * 2 ^ 8 + (b.getD 2 0).val * 2 ^ 16
    + (b.getD 3 0).val * 2 ^ 24

/-- Go `binary.LittleEndian.PutUint32(b, v)` on a four-byte slice: the four
bytes written. -/
def LittleEndian.PutUint32 (v : Nat) : List Byte :=
  [toByte v, toByte (v / 2 ^ 8), toByte (v / 2 ^ 16), toByte (v / 2 ^ 24)]

/-- Go `binary.BigEndian.Uint64(b)`: the bytes of `b`, most significant
first. -/
def BigEndian.Uint64 (b : List Byte) : Nat :=
  b.foldl (fun acc x => acc * 256 + x.val) 0

/-- Go builtin `copy(dst, src)`: the contents of `dst` afterwards. -/
def copy (dst src : List Byte) : List Byte :=
  src.take dst.length ++ dst.drop src.length

/-- Go `binary.BigEndian.PutUint16(key[4:], v)` on an 8-byte `key`: bytes 4
and 5 are overwritten with the high and the low byte of `v`. -/
def BigEndian.PutUint16At4 (key : List Byte) (v : Nat) : List Byte :=
  key.take 4 ++ [toByte (v / 2 ^ 8), toByte v] ++ key.drop 6

/-! ## net.UDPAddr -/

/-- Go `net.UDPAddr`: `IP` is a byte slice (4 bytes for IPv4, 16 for IPv6),
`Port` a Go `int`. -/
structure UDPAddr where
  IP : List Byte
  Port : Int
  Zone : String
  deriving DecidableEq, Repr

/-- Go `net.IP.To4`: a 4-byte address is returned as is, a 16-byte
IPv4-mapped address yields its last four bytes, anything else the nil slice. -/
def IP.To4 (ip : List Byte) : List Byte :=
  if ip.length = 4 then ip
  else if ip.length = 16 ∧ (ip.take 10).all (fun x => x == 0)
      ∧ ip.getD 10 0 = 0xff ∧ ip.getD 11 0 = 0xff then
    (ip.drop 12).take 4
  else []

/-- Conversion `uint16(p)` of a Go `int`. -/
def toUint16 (p : Int) : Nat := (p % 65536).toNat

/-- In `mux.go`, `makeUDPAddrKey`. -/
def makeUDPAddrKey (addr : UDPAddr) : Nat :=
  let key : List Byte := List.replicate 8 0
  let key := copy key (IP.To4 addr.IP)
  let key := BigEndian.PutUint16At4 key (toUint16 addr.Port)
  BigEndian.Uint64 key

/-! ## bufio.Reader over bytes.Reader (`reader.go`) -/

/-- A Go `error` value, identified by its message; `nil` is `none`. -/
abbrev Error := String

/-- Go `io.EOF`. -/
def EOF : Error := "EOF"

/-- Go `io.ErrUnexpectedEOF`. -/
def ErrUnexpectedEOF : Error := "unexpected EOF"

/-- Go `bufio.ErrBufferFull`. -/
def ErrBufferFull : Error := "bufio: buffer full"

/-- Size of the buffer `bufio.NewReader` allocates. -/
def defaultBufSize : Nat := 4096

/-- In `reader.go`, `Reader`: a `bufio.Reader` wrapped around a `bytes.Reader`.
`buffered` is the window `b.buf[b.r:b.w]` of the bufio buffer, `src` the part
of the byte slice the `bytes.Reader` has not handed out yet. The bufio
pending-error field is not kept: the source is a `bytes.Reader`, which
answers `(0, EOF)` again on every read once it is empty, so a pending error
and a repeated read give the same results. -/
structure Reader where
  buffered : List Byte
  src : List Byte
  deriving DecidableEq, Repr

/-- Everything a reader can still deliver, in order. -/
def Reader.unread (rd : Reader) : List Byte := rd.buffered ++ rd.src

/-- In `reader.go`, `NewReader`. -/
def NewReader (data : List Byte) : Reader := { buffered := [], src := data }

/-- In `reader.go`, `Reader.Size`: `bufio.Reader.Size`, the size of the
underlying buffer. -/
def Reader.Size (_rd : Reader) : Nat := defaultBufSize

/-- Go `bufio.Reader.fill`: one read of the source into the free part of the
buffer. -/
def Reader.fill (rd : Reader) : Reader :=
  let room := defaultBufSize - rd.buffered.length
  { buffered := rd.buffered ++ rd.src.take room, src := rd.src.drop room }

/-- In `reader.go`, `Reader.Peek` (`bufio.Reader.Peek`): the bytes returned, the
error and the reader afterwards. A single `fill` stands for the fill loop:
after it the buffer is full or the source is empty, and a further `fill`
adds nothing. -/
def Reader.Peek (rd : Reader) (n : Nat) : (List Byte × Option Error) × Reader :=
  let rd1 := if rd.buffered.length < n ∧ rd.buffered.length < defaultBufSize then rd.fill else rd
  if n > defaultBufSize then ((rd1.buffered, some ErrBufferFull), rd1)
  else if rd1.buffered.length < n then ((rd1.buffered, some EOF), rd1)
  else ((rd1.buffered.take n, none), rd1)

/-- In `reader.go`, `Reader.PeekUint32`. -/
def Reader.PeekUint32 (rd : Reader) : (Nat × Option Error) × Reader :=
  match rd.Peek 4 with
  | ((_, some err), rd1) => ((0, some err), rd1)
  | ((data, none), rd1) => ((LittleEndian.Uint32 data, none), rd1)

/-- In `reader.go`, `Reader.Read` (`bufio.Reader.Read`) into a slice of length
`k`: the bytes stored at the front of the slice, the error and the reader
afterwards. With an empty buffer a read of at least the buffer size goes
straight to the source, a smaller one fills the buffer once. A read into an
empty slice, which no caller makes, yields nothing. -/
def Reader.Read (rd : Reader) (k : Nat) : (List Byte × Option Error) × Reader :=
  if k = 0 then (([], none), rd)
  else if rd.buffered = [] then
    if rd.src = [] then (([], some EOF), rd)
    else if k ≥ defaultBufSize then
      ((rd.src.take k, none), { rd with src := rd.src.drop k })
    else
      let buf := rd.src.take defaultBufSize
      ((buf.take k, none), { buffered := buf.drop k, src := rd.src.drop defaultBufSize })
  else ((rd.buffered.take k, none), { rd with buffered := rd.buffered.drop k })

/-- Loop of Go `io.ReadAtLeast(r, buf, len(buf))`: read until `k` bytes are
collected in `acc` or a read fails. Every read that does not fail yields at
least one byte, so `k + 1` rounds are enough. -/
def ReadFullLoop : Nat → Reader → Nat → List Byte → (List Byte × Option Error) × Reader
  | 0, rd, _, acc => ((acc, none), rd)
  | fuel + 1, rd, k, acc =>
    if acc.length < k then
      match rd.Read (k - acc.length) with
      | ((bs, none), rd1) => ReadFullLoop fuel rd1 k (acc ++ bs)
      | ((bs, some err), rd1) => ((acc ++ bs, some err), rd1)
    else ((acc, none), rd)

/-- Go `io.ReadFull(rd.r, data)` with `len(data) = k`: the bytes read, the
error (`EOF` when nothing was read, `ErrUnexpectedEOF` when too little was)
and the reader afterwards. -/
def ReadFull (rd : Reader) (k : Nat) : (List Byte × Option Error) × Reader :=
  match ReadFullLoop (k + 1) rd k [] with
  | ((bs, err), rd1) =>
    if bs.length ≥ k then ((bs, none), rd1)
    else if 0 < bs.length ∧ err = some EOF then ((bs, some ErrUnexpectedEOF), rd1)
    else ((bs, err), rd1)

/-- In `reader.go`, `Reader.ReadUint32`. -/
def Reader.ReadUint32 (rd : Reader) : (Nat × Option Error) × Reader :=
  match ReadFull rd 4 with
  | ((_, some err), rd1) => ((0, some err), rd1)
  | ((bs, none), rd1) => ((LittleEndian.Uint32 (copy (List.replicate 4 0) bs), none), rd1)

/-- Split a byte string after the first occurrence of `delim`:
`some (upToAndIncludingDelim, rest)`, or `none` when `delim` does not occur. -/
def splitAfter (delim : Byte) : List Byte → Option (List Byte × List Byte)
  | [] => none
  | c :: cs =>
    if c = delim then some ([c], cs)
    else match splitAfter delim cs with
      | some (pre, post) => some (c :: pre, post)
      | none => none

/-- Loop of `bufio.Reader.ReadString` (`ReadSlice` driven by
`collectFragments`): search the buffer for `delim`; if it is absent, take the
whole buffer as a fragment when the source is exhausted or the buffer is
full, and fill otherwise. -/
def ReadStringLoop : Nat → Reader → Byte → List Byte → (List Byte × Option Error) × Reader
  | 0, rd, _, acc => ((acc, some EOF), rd)
  | fuel + 1, rd, delim, acc =>
    match splitAfter delim rd.buffered with
    | some (pre, post) => ((acc ++ pre, none), { rd with buffered := post })
    | none =>
      if rd.src = [] then ((acc ++ rd.buffered, some EOF), { rd with buffered := [] })
      else if rd.buffered.length ≥ defaultBufSize then
        ReadStringLoop fuel { rd with buffered := [] } delim (acc ++ rd.buffered)
      else ReadStringLoop fuel rd.fill delim acc

/-- In `reader.go`, `Reader.ReadString`: the bytes up to AND INCLUDING the first
`delim`, or all remaining bytes and `EOF` when there is none. Each round of
the loop either ends it or moves bytes out of the source (directly, or after
emptying a full buffer), so `2 * len(src) + 2` rounds are enough. -/
def Reader.ReadString (rd : Reader) (delim : Byte) : (List Byte × Option Error) × Reader :=
  ReadStringLoop (2 * rd.src.length + 2) rd delim []

/-- Go `^x` on a `uint32`. -/
def not32 (x : Nat) : Nat := (2 ^ 32 - 1) ^^^ (x % 2 ^ 32)

/-- Go `bits.ReverseBytes32`. -/
def ReverseBytes32 (x : Nat) : Nat :=
  (x / 2 ^ 24) % 2 ^ 8 + ((x / 2 ^ 16) % 2 ^ 8) * 2 ^ 8 + ((x / 2 ^ 8) % 2 ^ 8) * 2 ^ 16
    + (x % 2 ^ 8) * 2 ^ 24

/-- In `reader.go`, the table of `Unmunge2`. -/
def mungeTable2 : List Nat :=
  [0xffffe7a5, 0xbfefffe5, 0xffbfefff, 0xbfefbfed, 0xbfafefbf, 0xffbfafef, 0xffefbfad,
   0xffffefbf, 0xffeff7ef, 0xbfefe7f5, 0xbfbfe7e5, 0xffafb7e7, 0xbfffafb5, 0xbfafffaf,
   0xffafa7ff, 0xffefa7a5]

/-- In `reader.go`, the block loop of `Unmunge2`, from block index `i` on:
every complete 4-byte block is XORed with `seq ^ table[i % 16]`; a trailing
part of fewer than four bytes lies beyond `groups = len(data) / 4` and is
left alone. -/
def unmungeBlocks (seq : Nat) : Nat → List Byte → List Byte
  | i, b0 :: b1 :: b2 :: b3 :: rest =>
    LittleEndian.PutUint32
        (LittleEndian.Uint32 [b0, b1, b2, b3] ^^^ seq ^^^ mungeTable2.getD (i % 16) 0)
      ++ unmungeBlocks seq (i + 1) rest
  | _, rest => rest

/-- In `reader.go`, `Reader.Unmunge2`. The slice `data` has the SIZE OF THE
BUFIO BUFFER (`rd.r.Size()`), whatever the number of bytes `rd.r.Read`
stores in it; all of `data` is transformed and becomes the new content. -/
def Reader.Unmunge2 (rd : Reader) (seq : Nat) : Reader :=
  let data : List Byte := List.replicate rd.Size 0
  let data := copy data (rd.Read data.length).1.1
  let seq := ReverseBytes32 (not32 seq) ^^^ (seq % 2 ^ 32)
  let data := unmungeBlocks seq 0 data
  NewReader data

/-! ## The outside world -/

/-- Go `*net.UDPConn` returned by `net.DialUDP`: a connected socket. `fd`
tells two sockets to the same peer apart. -/
structure UDPConn where
  fd : Nat
  laddr : UDPAddr
  raddr : UDPAddr
  deriving DecidableEq, Repr

/-- What the code cannot decide by itself. `addrString` is
`net.UDPAddr.String`. `dial a` is what `net.DialUDP` to `a` yields: the new
socket, with the local and the remote address the operating system reports
for it, or an error. `write s data` is the error of a write of `data` on the
upstream socket `s`, and `send data client` the error of `WriteToUDP` on the
listening socket (`none` for nil). -/
structure Env where
  addrString : UDPAddr → String
  dial : UDPAddr → Except Error UDPConn
  write : UDPConn → List Byte → Option Error
  send : List Byte → UDPAddr → Option Error

/-- What the code does to the outside world, in order. -/
inductive Event where
  | dialed (raddr : Option UDPAddr) (ok : Bool)
  | closed (s : UDPConn)
  | wrote (s : UDPConn) (data : List Byte) (ok : Bool)
  | sent (data : List Byte) (client : UDPAddr) (ok : Bool)
  | handled (tag : Nat) (conn : Nat)
  | forwarding (conn : Nat)
  deriving DecidableEq, Repr

/-- Go `net.DialUDP("udp", nil, raddr)`: a nil `raddr` is refused
("missing address"); otherwise the environment decides. -/
def DialUDP (env : Env) (raddr : Option UDPAddr) : Except Error UDPConn :=
  match raddr with
  | none => .error "dial udp: missing address"
  | some a => env.dial a

/-! ## Conn (`conn.go`)

The lock of a `Conn` protects single field reads and writes only; every
method below is the sequential reading of its body. -/

/-- In `conn.go`, `Conn` (without its lock). -/
structure Conn where
  timeout : Nat
  client : UDPAddr
  upstreamConn : Option UDPConn
  nextUpstream : Option UDPAddr
  deriving DecidableEq, Repr

/-- Error of `Conn.Read` and `Conn.Write` when there is no socket. -/
def errNotEstablished : Error := "connection is not established"

/-- In `conn.go`, `Conn.Client`. -/
def Conn.Client (c : Conn) : UDPAddr := c.client

/-- In `conn.go`, `Conn.Conn` (named `socket` here, `Conn.Conn` being taken by
the type inside its own namespace). -/
def Conn.socket (c : Conn) : Option UDPConn := c.upstreamConn

/-- In `conn.go`, `Conn.Proxy`. -/
def Conn.Proxy (c : Conn) : Option UDPAddr :=
  match c.socket with
  | some conn => some conn.laddr
  | none => none

/-- In `conn.go`, `Conn.Upstream`. -/
def Conn.Upstream (c : Conn) : Option UDPAddr :=
  match c.socket with
  | some conn => some conn.raddr
  | none => none

/-- In `conn.go`, `Conn.NextUpstream`. -/
def Conn.NextUpstream (c : Conn) : Option UDPAddr := c.nextUpstream

/-- In `conn.go`, `Conn.shouldUpdate`. -/
def Conn.shouldUpdate (env : Env) (c : Conn) : Bool :=
  match c.NextUpstream with
  | none => false
  | some next =>
    match c.Upstream with
    | none => true
    | some up => env.addrString up != env.addrString next

/-- In `conn.go`, `Conn.SetNextUpstream`. -/
def Conn.SetNextUpstream (c : Conn) (upstream : Option UDPAddr) : Conn :=
  { c with nextUpstream := upstream }

/-- In `conn.go`, `Conn.Stop`: the connection afterwards and the socket closed,
if any. (The error of `Close` is dropped by every caller.) -/
def Conn.Stop (c : Conn) : Conn × List Event :=
  match c.upstreamConn with
  | some conn => ({ c with upstreamConn := none }, [Event.closed conn])
  | none => (c, [])

/-- In `conn.go`, `Conn.Read`; `sock` is what the read on the socket yields when
there is a socket. -/
def Conn.Read (c : Conn) (sock : Except Error (List Byte)) : Except Error (List Byte) :=
  match c.socket with
  | none => .error errNotEstablished
  | some _ => sock

/-- In `conn.go`, `Conn.Write`: the error returned and the write attempted. -/
def Conn.Write (env : Env) (c : Conn) (data : List Byte) : Option Error × List Event :=
  match c.socket with
  | none => (some errNotEstablished, [])
  | some conn =>
    match env.write conn data with
    | none => (none, [Event.wrote conn data true])
    | some err => (some err, [Event.wrote conn data false])

/-- In `conn.go`, `Conn.applyNextUpstream`. -/
def Conn.applyNextUpstream (env : Env) (c : Conn) : Option Error × Conn × List Event :=
  match DialUDP env c.NextUpstream with
  | .error err => (some err, c, [Event.dialed c.NextUpstream false])
  | .ok newConn =>
    (none, { c with upstreamConn := some newConn, nextUpstream := none },
      [Event.dialed c.NextUpstream true])

/-- How one round of the loop of `RunForward` ends. -/
inductive Round where
  | again
  | returned (err : Error)
  deriving DecidableEq, Repr

/-- In `conn.go`, `Conn.RunForward`: the part of a round that follows
`data, err := c.Read()`, given what `c.Read()` returned. -/
def Conn.afterRead (env : Env) (c : Conn) (res : Except Error (List Byte)) :
    Round × Conn × List Event :=
  match res with
  | .error err =>
    let (c1, ev1) := c.Stop
    if c1.NextUpstream ≠ none then
      match c1.applyNextUpstream env with
      | (some err2, c2, ev2) => (Round.returned err2, c2, ev1 ++ ev2)
      | (none, c2, ev2) => (Round.again, c2, ev1 ++ ev2)
    else (Round.returned ("read from upstream error: " ++ err), c1, ev1)
  | .ok data =>
    match env.send data c.client with
    | none => (Round.again, c, [Event.sent data c.client true])
    | some err =>
      let (c1, ev1) := c.Stop
      (Round.returned ("write to client from upstream error: " ++ err), c1,
        Event.sent data c.client false :: ev1)

/-- In `conn.go`, `Conn.RunForward`: one round of the loop, `sock` being what
the socket read of this round yields. -/
def Conn.round (env : Env) (c : Conn) (sock : Except Error (List Byte)) :
    Round × Conn × List Event :=
  if c.Upstream ≠ none then c.afterRead env (c.Read sock)
  else (Round.returned "no upstream candidates available", c, [])

/-- In `conn.go`, `Conn.RunForward`, run on its own against the socket reads
`socks`: `some err` when it returns `err`, `none` when it is still in the
loop after the last of `socks` (it never returns nil). -/
def Conn.RunForward (env : Env) : List (Except Error (List Byte)) → Conn →
    Option Error × Conn × List Event
  | [], c =>
    if c.Upstream ≠ none then (none, c, [])
    else (some "no upstream candidates available", c, [])
  | sock :: socks, c =>
    match c.round env sock with
    | (Round.returned err, c1, ev1) => (some err, c1, ev1)
    | (Round.again, c1, ev1) =>
      match Conn.RunForward env socks c1 with
      | (r, c2, ev2) => (r, c2, ev1 ++ ev2)

/-- In `conn.go`, `Conn.RunForward`, taken up where it blocks: inside
`c.Read()`, in the read on the socket (conn.go:105). `sock` is what that read
yields, `c` the connection as it is when the read returns; the rest of the
round follows, then the loop against the socket reads `socks`. -/
def Conn.RunForwardResumed (env : Env) (c : Conn) (sock : Except Error (List Byte))
    (socks : List (Except Error (List Byte))) : Option Error × Conn × List Event :=
  match c.afterRead env sock with
  | (Round.returned err, c1, ev1) => (some err, c1, ev1)
  | (Round.again, c1, ev1) =>
    match c1.RunForward env socks with
    | (r, c2, ev2) => (r, c2, ev1 ++ ev2)

/-! ## Mux (`mux.go`) -/

/-- A Go string literal of ASCII characters, as its bytes. -/
def str (s : String) : List Byte := s.toList.map (fun ch => toByte ch.toNat)

/-- Go `strings.Split(s, sep)` for a one-byte separator: the pieces between
the occurrences of `sep`, empty pieces included; never an empty list. -/
def Split (s : List Byte) (sep : Byte) : List (List Byte) :=
  match s with
  | [] => [[]]
  | ch :: rest =>
    if ch = sep then [] :: Split rest sep
    else
      match Split rest sep with
      | [] => [[ch]]
      | t :: ts => (ch :: t) :: ts

/-- In `mux.go`, `tokenize`. -/
def tokenize (data : List Byte) : List (List Byte) := Split data 0x20

/-- In `mux.go`, `HandlerFunc`: a callback of the embedding program, run on the
connection. `run` is what it does to the connection, `tag` names it in the
list of events. -/
structure HandlerFunc where
  tag : Nat
  run : Conn → Conn

/-- In `mux.go`, `Mux` (without its lock and its stop channel), together with
the `Conn` objects allocated so far: `conns` is the Go map from keys to
`*Conn`, a pointer being an index into `objs`; `nobjs` pointers are in use. -/
structure Mux where
  timeout : Nat
  defaultUpstream : Option UDPAddr
  conns : Nat → Option Nat
  getchallengeChains : List HandlerFunc
  workers : Nat
  objs : Nat → Conn
  nobjs : Nat

/-- In `mux.go`, `NewMux`; `numCPU` is `runtime.NumCPU()`, the timeout is in
seconds. -/
def NewMux (upstream : Option UDPAddr) (numCPU : Nat) : Mux :=
  { timeout := 30
    defaultUpstream := upstream
    conns := fun _ => none
    getchallengeChains := []
    workers := numCPU
    objs := fun _ => { timeout := 0, client := ⟨[], 0, ""⟩, upstreamConn := none,
                       nextUpstream := none }
    nobjs := 0 }

/-- Assignment through a pointer: `*p = c`. -/
def Mux.store (m : Mux) (p : Nat) (c : Conn) : Mux :=
  { m with objs := fun q => if q = p then c else m.objs q }

/-- The call `conn.SetNextUpstream(upstream)` of `conn.go`, made through the
pointer `conn` (as the console and the HTTP handler of `hlmuxd` make it). -/
def Mux.SetNextUpstream (m : Mux) (conn : Nat) (upstream : Option UDPAddr) : Mux :=
  m.store conn ((m.objs conn).SetNextUpstream upstream)

/-- In `mux.go`, `Mux.FindConnectionByClient`. -/
def Mux.FindConnectionByClient (m : Mux) (client : UDPAddr) : Option Nat :=
  m.conns (makeUDPAddrKey client)

/-- In `mux.go`, `Mux.OnGetChallenge`. -/
def Mux.OnGetChallenge (m : Mux) (handlers : List HandlerFunc) : Mux :=
  { m with getchallengeChains := m.getchallengeChains ++ handlers }

/-- In `mux.go`, `Mux.delete`. -/
def Mux.delete (m : Mux) (client : UDPAddr) : Mux :=
  { m with conns := fun k => if k = makeUDPAddrKey client then none else m.conns k }

/-- In `mux.go`, `Mux.setConnection`. -/
def Mux.setConnection (m : Mux) (client : UDPAddr) (conn : Nat) : Mux :=
  { m with conns := fun k => if k = makeUDPAddrKey client then some conn else m.conns k }

/-- In `mux.go`, `Mux.process`, lines 144-149: a new `Conn` object is allocated
and registered for `client`. -/
def Mux.newConn (m : Mux) (client : UDPAddr) : Mux × Nat :=
  let conn := m.nobjs
  let m1 := { (m.store conn { timeout := m.timeout, client := client, upstreamConn := none,
                              nextUpstream := m.defaultUpstream }) with nobjs := m.nobjs + 1 }
  (m1.setConnection client conn, conn)

/-- In `mux.go`, `Mux.process`, lines 141-159: the connection of `client` is
looked up, and created, dialled and given its forwarder when there is none.
An error is the early return of line 151. -/
def Mux.connFor (env : Env) (m : Mux) (client : UDPAddr) :
    Option Error × Mux × Nat × List Event :=
  match m.FindConnectionByClient client with
  | some conn => (none, m, conn, [])
  | none =>
    let (m1, conn) := m.newConn client
    match (m1.objs conn).applyNextUpstream env with
    | (some err, c, ev) => (some ("cannot connect to upstream: " ++ err), m1.store conn c, conn, ev)
    | (none, c, ev) => (none, m1.store conn c, conn, ev ++ [Event.forwarding conn])

/-- In `mux.go`, `Mux.process`, lines 175-177: the handlers are called on the
connection one after the other. -/
def Mux.runChain (m : Mux) (conn : Nat) : List HandlerFunc → Mux × List Event
  | [] => (m, [])
  | handler :: rest =>
    match Mux.runChain (m.store conn (handler.run (m.objs conn))) conn rest with
    | (m1, ev) => (m1, Event.handled handler.tag conn :: ev)

/-- What `process` finds out about a datagram: the local variables of lines
161-192. -/
inductive Class where
  | connectionless (tokens : List (List Byte))
  | sequenced (seq ack : Nat) (seqReliable ackReliable fragmented : Bool)
  deriving DecidableEq, Repr

/-- Whether `connectionless` was set. -/
def Class.isConnectionless : Class → Bool
  | .connectionless _ => true
  | .sequenced .. => false

/-- In `mux.go`, `Mux.process`, lines 161-196; `r` is the reader after the peek
and `peeked` the value peeked. -/
def Mux.classify (m : Mux) (conn : Nat) (r : Reader) (peeked : Nat) :
    Class × Mux × List Event :=
  if peeked = 0xffffffff then
    let r1 := r.ReadUint32.2
    let line := (r1.ReadString 0x0a).1.1
    let tokens := tokenize line
    if tokens.headD [] = str "getchallenge" then
      match m.runChain conn m.getchallengeChains with
      | (m1, ev) => (Class.connectionless tokens, m1, ev)
    else (Class.connectionless tokens, m, [])
  else
    let seq := r.ReadUint32.1.1
    let ack := r.ReadUint32.2.ReadUint32.1.1
    let seqReliable := seq >>> 31 != 0
    let ackReliable := ack >>> 31 != 0
    let fragmented := seq &&& (1 <<< 30) != 0
    (Class.sequenced seq ack seqReliable ackReliable fragmented, m, [])

/-- In `mux.go`, `Mux.process`, lines 198-200: a connectionless datagram
stops a connection whose pending upstream is due. -/
def Mux.migrate (env : Env) (m : Mux) (conn : Nat) (connectionless : Bool) : Mux × List Event :=
  if connectionless && (m.objs conn).shouldUpdate env then
    (m.store conn (m.objs conn).Stop.1, (m.objs conn).Stop.2)
  else (m, [])

/-- In `mux.go`, `Mux.process`, lines 202-209 (`conn` is not nil there): the
result of `conn.Write`, the state afterwards and the events. -/
def Mux.relay (env : Env) (m : Mux) (conn : Nat) (pkt : List Byte) :
    Option Error × Mux × List Event :=
  match (m.objs conn).Write env pkt with
  | (some err, ev) => (some err, m.store conn (m.objs conn).Stop.1, ev ++ (m.objs conn).Stop.2)
  | (none, ev) => (none, m, ev)

/-- What one call of `process` did: the error returned, the state left, the
events, and, as far as `process` got, the connection it worked on, what it
found out about the datagram, and `some r` for the result `r` of
`conn.Write`. -/
structure Outcome where
  err : Option Error
  mux : Mux
  events : List Event
  conn : Option Nat
  cls : Option Class
  written : Option (Option Error)

/-- In `mux.go`, `Mux.process`, lines 135-200: what `process` does with the
bytes `pkt` received from `client` before it turns to the write. An error is
an early return. -/
def Mux.processHead (env : Env) (m : Mux) (pkt : List Byte) (client : UDPAddr) : Outcome :=
  match (NewReader pkt).PeekUint32 with
  | ((_, some err), _) =>
    { err := some err, mux := m, events := [], conn := none, cls := none, written := none }
  | ((peeked, none), r) =>
    match m.connFor env client with
    | (some err, m1, conn, ev1) =>
      { err := some err, mux := m1, events := ev1, conn := some conn, cls := none,
        written := none }
    | (none, m1, conn, ev1) =>
      match m1.classify conn r peeked with
      | (cls, m2, ev2) =>
        match m2.migrate env conn cls.isConnectionless with
        | (m3, ev3) =>
          { err := none, mux := m3, events := ev1 ++ ev2 ++ ev3, conn := some conn,
            cls := some cls, written := none }

/-- In `mux.go`, `Mux.process`, lines 202-211, run after the lines before them
left `head`: unless they returned, the datagram is written, on the state
`head.mux`, and nil is returned. -/
def Mux.processTail (env : Env) (pkt : List Byte) (head : Outcome) : Outcome :=
  match head.err, head.conn with
  | none, some conn =>
    match head.mux.relay env conn pkt with
    | (werr, m4, ev4) =>
      { head with mux := m4, events := head.events ++ ev4, written := some werr }
  | _, _ => head

/-- In `mux.go`, `Mux.process`. `recv` is what `listener.ReadFromUDP(data)`
returned: an error, or the bytes `data[:n]` received and the sender. -/
def Mux.process (env : Env) (m : Mux) (recv : Except Error (List Byte × UDPAddr)) : Outcome :=
  match recv with
  | .error err =>
    { err := some err, mux := m, events := [], conn := none, cls := none, written := none }
  | .ok (pkt, client) => Mux.processTail env pkt (m.processHead env pkt client)

/-- In `mux.go`, `Mux.process`, lines 154-158: the goroutine started for a new
connection. `RunForward` is run against the socket reads `socks`; when it
returns an error the connection of `client` is deleted from the table. -/
def Mux.forwarder (env : Env) (m : Mux) (client : UDPAddr) (conn : Nat)
    (socks : List (Except Error (List Byte))) : Option Error × Mux × List Event :=
  match (m.objs conn).RunForward env socks with
  | (some err, c, ev) => (some err, (m.store conn c).delete client, ev)
  | (none, c, ev) => (none, m.store conn c, ev)

/-- The same goroutine, taken up where `RunForward` blocks in its socket
read, when that read returns `sock`. -/
def Mux.forwarderResumed (env : Env) (m : Mux) (client : UDPAddr) (conn : Nat)
    (sock : Except Error (List Byte)) (socks : List (Except Error (List Byte))) :
    Option Error × Mux × List Event :=
  match (m.objs conn).RunForwardResumed env sock socks with
  | (some err, c, ev) => (some err, (m.store conn c).delete client, ev)
  | (none, c, ev) => (none, m.store conn c, ev)

/-! ## Workers racing on one client (`mux.go`, `Mux.process`, lines 141-149)

`FindConnectionByClient` takes the read lock and releases it; `setConnection`
takes the write lock later. Each is one atomic step, and steps of different
workers interleave freely. -/

/-- Where a worker stands in lines 141-149 of `process`. -/
inductive Worker where
  | start
  | looked (conn : Option Nat)
  | holds (conn : Nat)
  deriving DecidableEq, Repr

/-- One atomic step of a worker that received a datagram from `client`: the
lookup of line 141, then, when it found nothing, allocation and insert of
lines 144-149. -/
def Mux.workerStep (m : Mux) (client : UDPAddr) : Worker → Mux × Worker
  | .start => (m, .looked (m.FindConnectionByClient client))
  | .looked none =>
    match m.newConn client with
    | (m1, conn) => (m1, .holds conn)
  | .looked (some conn) => (m, .holds conn)
  | .holds conn => (m, .holds conn)

/-- Workers `ws` run from state `m` under a schedule, which names, step by
step, the worker that moves next (a number that names no worker is skipped). -/
def Mux.runWorkers (client : UDPAddr) : List Nat → Mux → List Worker → Mux × List Worker
  | [], m, ws => (m, ws)
  | i :: rest, m, ws =>
    match ws.get? i with
    | none => Mux.runWorkers client rest m ws
    | some w =>
      match m.workerStep client w with
      | (m1, w1) => Mux.runWorkers client rest m1 (ws.set i w1)

/-! ## Conn methods in sequence -/

/-- A call of a method of `Conn`, with what the outside world answers to it
where that matters: the environment of a dial or a write, the outcome of a
socket read. -/
inductive Call where
  | SetNextUpstream (upstream : Option UDPAddr)
  | Stop
  | Read (sock : Except Error (List Byte))
  | Write (env : Env) (data : List Byte)
  | applyNextUpstream (env : Env)

/-- The error a call returns (`none` for nil, and for a method that returns
none) and the connection afterwards. -/
def Conn.call (c : Conn) : Call → Option Error × Conn
  | .SetNextUpstream upstream => (none, c.SetNextUpstream upstream)
  | .Stop => (none, c.Stop.1)
  | .Read sock =>
    match c.Read sock with
    | .error err => (some err, c)
    | .ok _ => (none, c)
  | .Write env data => ((c.Write env data).1, c)
  | .applyNextUpstream env => ((c.applyNextUpstream env).1, (c.applyNextUpstream env).2.1)

/-- A sequence of calls on one connection: each call with the error it
returned, in order, and the connection at the end. -/
def Conn.calls : Conn → List Call → List (Call × Option Error) × Conn
  | c, [] => ([], c)
  | c, call :: rest =>
    match Conn.calls (c.call call).2 rest with
    | (log, c1) => ((call, (c.call call).1) :: log, c1)

/-! ## A concrete setting -/

/-- An upstream server. -/
def demoUpstream : UDPAddr := ⟨[10, 0, 0, 1], 27015, ""⟩

/-- Another upstream server. -/
def demoOther : UDPAddr := ⟨[10, 0, 0, 2], 27016, ""⟩

/-- A client. -/
def demoClient : UDPAddr := ⟨[192, 168, 1, 10], 27015, ""⟩

/-- An environment in which every dial, every upstream write and every write
to a client has the given outcome. An address is printed as its bytes
followed by its port; a socket has the remote address that was dialled. -/
def demoEnv (dialOk writeOk sendOk : Bool) : Env :=
  { addrString := fun a =>
      String.mk (a.IP.map (fun b => Char.ofNat b.val) ++ Nat.toDigits 10 (toUint16 a.Port))
    dial := fun a =>
      if dialOk then
        .ok { fd := (a.IP.getD 3 0).val, laddr := ⟨[127, 0, 0, 1], 40000, ""⟩, raddr := a }
      else .error "dial udp: connect failed"
    write := fun _ _ => if writeOk then none else some "write: failed"
    send := fun _ _ => if sendOk then none else some "sendto: failed" }

/-- A multiplexer with two getchallenge handlers, tagged 1 and 2, that leave
the connection as it is. -/
def demoMux : Mux :=
  (NewMux (some demoUpstream) 4).OnGetChallenge [⟨1, fun c => c⟩, ⟨2, fun c => c⟩]

/-- The datagram `FF FF FF FF "getchallenge\n"`. -/
def getchallengePkt : List Byte := [0xff, 0xff, 0xff, 0xff] ++ str "getchallenge\n"

/-- The socket `demoEnv` hands out for `demoUpstream`. -/
def demoSocket : UDPConn := { fd := 1, laddr := ⟨[127, 0, 0, 1], 40000, ""⟩, raddr := demoUpstream }

/-- The state of `demoMux` after a first datagram of `demoClient`: its
connection is pointer 0 and has the socket `demoSocket`. -/
def demoEstablished : Mux :=
  (demoMux.process (demoEnv true true true) (.ok ([1, 0, 0, 0, 0, 0, 0, 0], demoClient))).mux

/-- The state of `demoMux` after a first datagram of `demoClient` for which
the dial failed: its connection is pointer 0 and has no socket. -/
def demoUnestablished : Mux :=
  (demoMux.process (demoEnv false true true) (.ok ([1, 0, 0, 0, 0, 0, 0, 0], demoClient))).mux

/-- A sequenced datagram of ten bytes: seq 1, ack 0x80000000, two bytes of
payload. -/
def demoSequenced : List Byte := [1, 0, 0, 0, 0, 0, 0, 0x80, 0xAA, 0xBB]

/-- The state `demoEstablished` with one more getchallenge handler, tagged 3,
which withdraws the pending upstream of the connection. -/
def demoCancelling : Mux :=
  demoEstablished.OnGetChallenge [⟨3, fun c => c.SetNextUpstream none⟩]

/-- The datagram `FF FF FF FF "getchallenge steam\n"`. -/
def getchallengeSteamPkt : List Byte := [0xff, 0xff, 0xff, 0xff] ++ str "getchallenge steam\n"

/-- The socket `demoEnv` hands out for `demoOther`. -/
def demoOtherSocket : UDPConn :=
  { fd := 2, laddr := ⟨[127, 0, 0, 1], 40000, ""⟩, raddr := demoOther }

/-! ## The key of a client -/

theorem makeUDPAddrKey_ipv4 (a0 a1 a2 a3 : Byte) (p : Int) (z : String) (h0 : 0 ≤ p)
    (h1 : p ≤ 65535) :
    makeUDPAddrKey ⟨[a0, a1, a2, a3], p, z⟩
      = ((((a0.val * 256 + a1.val) * 256 + a2.val) * 256 + a3.val) * 65536 + p.toNat)
          * 65536 := by
  simp only [makeUDPAddrKey, IP.To4, copy, BigEndian.PutUint16At4, BigEndian.Uint64, toUint16,
    toByte]
  simp
  have hp : (p % 65536).toNat = p.toNat := by
    rw [Int.emod_eq_of_lt h0 (by omega)]
  rw [hp]
  omega

/-- C2. `makeUDPAddrKey` is injective on IPv4 endpoints: two endpoints with
4-byte addresses and ports in 0..65535 that have the same key have the same
address and the same port; and 192.168.1.10:27015 has the key whose
big-endian bytes are C0 A8 01 0A 69 87 00 00. -/
theorem makeUDPAddrKey_injective_ipv4 :
    (∀ a b : UDPAddr, a.IP.length = 4 → b.IP.length = 4 →
      0 ≤ a.Port → a.Port ≤ 65535 → 0 ≤ b.Port → b.Port ≤ 65535 →
      makeUDPAddrKey a = makeUDPAddrKey b → a.IP = b.IP ∧ a.Port = b.Port)
    ∧ makeUDPAddrKey ⟨[192, 168, 1, 10], 27015, ""⟩
        = BigEndian.Uint64 [0xC0, 0xA8, 0x01, 0x0A, 0x69, 0x87, 0x00, 0x00]
    ∧ makeUDPAddrKey ⟨[192, 168, 1, 10], 27015, ""⟩ = 0xC0A8010A69870000 := by
  refine ⟨?_, by decide, by decide⟩
  rintro ⟨ipa, pa, za⟩ ⟨ipb, pb, zb⟩ ha hb ha0 ha1 hb0 hb1 h
  simp only at ha hb ha0 ha1 hb0 hb1
  match ipa, ha with
  | [a0, a1, a2, a3], _ =>
    match ipb, hb with
    | [b0, b1, b2, b3], _ =>
      rw [makeUDPAddrKey_ipv4 _ _ _ _ _ _ ha0 ha1, makeUDPAddrKey_ipv4 _ _ _ _ _ _ hb0 hb1] at h
      have h0 := a0.isLt
      have h1 := a1.isLt
      have h2 := a2.isLt
      have h3 := a3.isLt
      have g0 := b0.isLt
      have g1 := b1.isLt
      have g2 := b2.isLt
      have g3 := b3.isLt
      have e0 : a0.val = b0.val := by omega
      have e1 : a1.val = b1.val := by omega
      have e2 : a2.val = b2.val := by omega
      have e3 : a3.val = b3.val := by omega
      have ep : pa = pb := by omega
      simp [Fin.ext e0, Fin.ext e1, Fin.ext e2, Fin.ext e3, ep]

/-- C2 at a concrete input: two endpoints that differ in their zone only
have the same key, and so the same address and port. -/
theorem makeUDPAddrKey_injective_ipv4_witness :
    makeUDPAddrKey ⟨[192, 168, 1, 10], 27015, ""⟩
        = makeUDPAddrKey ⟨[192, 168, 1, 10], 27015, "eth0"⟩
    ∧ (⟨[192, 168, 1, 10], 27015, ""⟩ : UDPAddr).IP
        = (⟨[192, 168, 1, 10], 27015, "eth0"⟩ : UDPAddr).IP
    ∧ (⟨[192, 168, 1, 10], 27015, ""⟩ : UDPAddr).Port
        = (⟨[192, 168, 1, 10], 27015, "eth0"⟩ : UDPAddr).Port :=
  ⟨by decide,
    makeUDPAddrKey_injective_ipv4.1 ⟨[192, 168, 1, 10], 27015, ""⟩
      ⟨[192, 168, 1, 10], 27015, "eth0"⟩ (by decide) (by decide) (by decide) (by decide)
      (by decide) (by decide) (by decide)⟩


/-! ## Lemmas on the codec -/

theorem Uint32_four_lt (b0 b1 b2 b3 : Byte) : LittleEndian.Uint32 [b0, b1, b2, b3] < 2 ^ 32 := by
  have h0 := b0.isLt
  have h1 := b1.isLt
  have h2 := b2.isLt
  have h3 := b3.isLt
  simp only [LittleEndian.Uint32, List.getD_cons_zero, List.getD_cons_succ]
  omega

theorem PutUint32_Uint32 (b0 b1 b2 b3 : Byte) :
    LittleEndian.PutUint32 (LittleEndian.Uint32 [b0, b1, b2, b3]) = [b0, b1, b2, b3] := by
  have h0 := b0.isLt
  have h1 := b1.isLt
  have h2 := b2.isLt
  have h3 := b3.isLt
  simp only [LittleEndian.Uint32, LittleEndian.PutUint32, List.getD_cons_zero,
    List.getD_cons_succ, toByte]
  refine congrArg₂ _ (Fin.ext ?_) (congrArg₂ _ (Fin.ext ?_) (congrArg₂ _ (Fin.ext ?_)
    (congrArg₂ _ (Fin.ext ?_) rfl))) <;> simp only <;> omega

theorem Uint32_PutUint32 (v : Nat) (hv : v < 2 ^ 32) :
    LittleEndian.Uint32 (LittleEndian.PutUint32 v) = v := by
  simp only [LittleEndian.Uint32, LittleEndian.PutUint32, List.getD_cons_zero,
    List.getD_cons_succ, toByte]
  omega

theorem mungeTable2_lt (j : Nat) : mungeTable2.getD j 0 < 2 ^ 32 := by
  by_cases hj : j < 16
  · interval_cases j <;> decide
  · rw [List.getD_eq_default]
    · decide
    · simp [mungeTable2]; omega

theorem unmungeBlocks_involutive (k : Nat) (hk : k < 2 ^ 32) :
    ∀ (i : Nat) (data : List Byte), unmungeBlocks k i (unmungeBlocks k i data) = data := by
  intro i data
  induction i, data using unmungeBlocks.induct k with
  | case1 i b0 b1 b2 b3 rest ih =>
    have hx := Uint32_four_lt b0 b1 b2 b3
    have ht := mungeTable2_lt (i % 16)
    have hv : LittleEndian.Uint32 [b0, b1, b2, b3] ^^^ k ^^^ mungeTable2.getD (i % 16) 0 < 2 ^ 32 :=
      Nat.xor_lt_two_pow (Nat.xor_lt_two_pow hx hk) ht
    rw [unmungeBlocks]
    simp only [LittleEndian.PutUint32, List.cons_append, List.nil_append]
    rw [unmungeBlocks]
    have := Uint32_PutUint32 _ hv
    simp only [LittleEndian.PutUint32] at this
    rw [this, ih]
    have hxx : LittleEndian.Uint32 [b0, b1, b2, b3] ^^^ k ^^^ mungeTable2.getD (i % 16) 0 ^^^ k
        ^^^ mungeTable2.getD (i % 16) 0 = LittleEndian.Uint32 [b0, b1, b2, b3] := by
      generalize LittleEndian.Uint32 [b0, b1, b2, b3] = x
      generalize mungeTable2.getD (i % 16) 0 = t
      apply Nat.eq_of_testBit_eq
      intro j
      simp only [Nat.testBit_xor]
      cases x.testBit j <;> cases k.testBit j <;> cases t.testBit j <;> rfl
    rw [hxx, PutUint32_Uint32]
    rfl
  | case2 i data h =>
    have e : unmungeBlocks k i data = data := by
      rw [unmungeBlocks]
      intro b0 b1 b2 b3 rest hh
      exact h b0 b1 b2 b3 rest hh
    rw [e, e]

theorem unmungeBlocks_length (k : Nat) :
    ∀ (i : Nat) (data : List Byte), (unmungeBlocks k i data).length = data.length := by
  intro i data
  induction i, data using unmungeBlocks.induct k with
  | case1 i b0 b1 b2 b3 rest ih =>
    rw [unmungeBlocks]
    simp [LittleEndian.PutUint32, ih]
  | case2 i data h =>
    rw [unmungeBlocks]
    intro b0 b1 b2 b3 rest hh
    exact h b0 b1 b2 b3 rest hh

/-- The key `Unmunge2` derives from `seq`. -/
theorem mungeKey_lt (seq : Nat) : ReverseBytes32 (not32 seq) ^^^ (seq % 2 ^ 32) < 2 ^ 32 := by
  apply Nat.xor_lt_two_pow
  · simp only [ReverseBytes32]
    omega
  · omega

theorem copy_zeros_Read (data : List Byte) (h : data.length ≤ defaultBufSize) :
    copy (List.replicate defaultBufSize (0 : Byte)) ((NewReader data).Read defaultBufSize).1.1
      = data ++ List.replicate (defaultBufSize - data.length) 0 := by
  have hpos : defaultBufSize ≠ 0 := by decide
  cases data with
  | nil => simp [NewReader, Reader.Read, copy, hpos]
  | cons b bs =>
    simp only [NewReader, Reader.Read, copy, hpos, if_false, if_true, List.length_replicate,
      ge_iff_le, le_refl, reduceCtorEq]
    rw [List.take_of_length_le h, List.take_of_length_le h, List.drop_replicate]

theorem Unmunge2_NewReader (seq : Nat) (data : List Byte) (h : data.length ≤ defaultBufSize) :
    (NewReader data).Unmunge2 seq
      = NewReader (unmungeBlocks (ReverseBytes32 (not32 seq) ^^^ (seq % 2 ^ 32)) 0
          (data ++ List.replicate (defaultBufSize - data.length) 0)) := by
  simp only [Reader.Unmunge2, Reader.Size, List.length_replicate]
  rw [copy_zeros_Read data h]

theorem Unmunge2_twice_padded (seq : Nat) (buf : List Byte) (h : buf.length ≤ defaultBufSize) :
    (((NewReader buf).Unmunge2 seq).Unmunge2 seq).unread
      = buf ++ List.replicate (defaultBufSize - buf.length) 0 := by
  rw [Unmunge2_NewReader seq buf h]
  have hlen : (unmungeBlocks (ReverseBytes32 (not32 seq) ^^^ (seq % 2 ^ 32)) 0
      (buf ++ List.replicate (defaultBufSize - buf.length) 0)).length = defaultBufSize := by
    rw [unmungeBlocks_length, List.length_append, List.length_replicate]
    omega
  rw [Unmunge2_NewReader seq _ (le_of_eq hlen), hlen]
  simp only [Nat.sub_self, List.replicate_zero, List.append_nil]
  rw [unmungeBlocks_involutive _ (mungeKey_lt seq)]
  simp only [Reader.unread, NewReader, List.nil_append]

/-- C1 (the code departs from the claim). `Unmunge2` applied twice with
seq 5 to a reader over the 4-byte buffer 01 02 03 04 leaves 4096 bytes to
read, the four bytes of the buffer followed by 4092 zero bytes, not the
buffer: the slice `Unmunge2` works on has the size of the bufio buffer, not
the number of bytes read. -/
theorem Unmunge2_twice_failing :
    (((NewReader [1, 2, 3, 4]).Unmunge2 5).Unmunge2 5).unread
        = [1, 2, 3, 4] ++ List.replicate 4092 0
    ∧ (((NewReader [1, 2, 3, 4]).Unmunge2 5).Unmunge2 5).unread.length = 4096
    ∧ (((NewReader [1, 2, 3, 4]).Unmunge2 5).Unmunge2 5).unread ≠ [1, 2, 3, 4] := by
  have h : (((NewReader [1, 2, 3, 4]).Unmunge2 5).Unmunge2 5).unread
      = [1, 2, 3, 4] ++ List.replicate 4092 0 :=
    Unmunge2_twice_padded 5 [1, 2, 3, 4] (by decide)
  refine ⟨h, ?_, ?_⟩
  · rw [h, List.length_append, List.length_replicate]
    rfl
  · intro hc
    have hl := congrArg List.length (h.symm.trans hc)
    rw [List.length_append, List.length_replicate] at hl
    exact absurd hl (by decide)

/-! ## `ReadString` has fuel enough -/

theorem splitAfter_append_some (d : Byte) (r : List Byte) :
    ∀ (l pre post : List Byte), splitAfter d l = some (pre, post) →
      splitAfter d (l ++ r) = some (pre, post ++ r) := by
  intro l
  induction l with
  | nil => intro pre post h; simp [splitAfter] at h
  | cons c cs ih =>
    intro pre post h
    rw [splitAfter] at h
    rw [List.cons_append, splitAfter]
    by_cases hc : c = d
    · simp only [hc, if_true, Option.some.injEq, Prod.mk.injEq] at h ⊢
      exact ⟨h.1, by rw [← h.2]⟩
    · simp only [hc, if_false] at h ⊢
      cases hs : splitAfter d cs with
      | none => rw [hs] at h; simp at h
      | some pp =>
        obtain ⟨p1, p2⟩ := pp
        rw [hs] at h
        simp only [Option.some.injEq, Prod.mk.injEq] at h
        rw [ih p1 p2 hs]
        simp only [Option.some.injEq, Prod.mk.injEq]
        exact ⟨h.1, by rw [← h.2]⟩

theorem splitAfter_append_none (d : Byte) (r : List Byte) :
    ∀ (l : List Byte), splitAfter d l = none →
      splitAfter d (l ++ r)
        = match splitAfter d r with
          | some (pre, post) => some (l ++ pre, post)
          | none => none := by
  intro l
  induction l with
  | nil =>
    intro _
    simp only [List.nil_append]
    cases splitAfter d r with
    | none => rfl
    | some pp => rfl
  | cons c cs ih =>
    intro h
    rw [splitAfter] at h
    rw [List.cons_append, splitAfter]
    by_cases hc : c = d
    · simp [hc] at h
    · simp only [hc, if_false] at h ⊢
      cases hs : splitAfter d cs with
      | some pp => rw [hs] at h; simp at h
      | none =>
        rw [ih hs]
        cases splitAfter d r with
        | none => rfl
        | some pp => rfl

theorem fill_unread (rd : Reader) : rd.fill.unread = rd.unread := by
  simp [Reader.fill, Reader.unread]

theorem ReadStringLoop_spec (delim : Byte) :
    ∀ (fuel : Nat) (rd : Reader) (acc : List Byte),
      2 * rd.src.length + (if defaultBufSize ≤ rd.buffered.length then 1 else 0) < fuel →
      (ReadStringLoop fuel rd delim acc).1
          = (match splitAfter delim rd.unread with
            | some (pre, _) => (acc ++ pre, none)
            | none => (acc ++ rd.unread, some EOF))
        ∧ (ReadStringLoop fuel rd delim acc).2.unread
          = (match splitAfter delim rd.unread with
            | some (_, post) => post
            | none => []) := by
  intro fuel
  induction fuel with
  | zero => intro rd acc h; omega
  | succ fuel ih =>
    intro rd acc h
    obtain ⟨buffered, src⟩ := rd
    simp only [ReadStringLoop, Reader.unread] at h ⊢
    cases hb : splitAfter delim buffered with
    | some pp =>
      obtain ⟨pre, post⟩ := pp
      simp only [splitAfter_append_some delim src buffered pre post hb, Reader.unread, and_self]
    | none =>
      simp only
      by_cases hsrc : src = []
      · subst hsrc
        simp only [if_true, List.append_nil, hb, Reader.unread, and_self]
      · simp only [if_neg hsrc]
        have hpos : 0 < src.length := List.length_pos.mpr hsrc
        rw [splitAfter_append_none delim src buffered hb]
        by_cases hfull : buffered.length ≥ defaultBufSize
        · simp only [if_pos hfull]
          have hih := ih { buffered := [], src := src } (acc ++ buffered) (by
            simp only [List.length_nil]
            have : ¬ defaultBufSize ≤ 0 := by decide
            simp only [this, if_false]
            simp only [ge_iff_le] at hfull
            simp only [hfull, if_true] at h
            omega)
          simp only [Reader.unread, List.nil_append] at hih
          rw [hih.1, hih.2]
          cases splitAfter delim src with
          | none => simp
          | some pp => simp
        · simp only [if_neg hfull]
          have hlt : buffered.length < defaultBufSize := by omega
          have hih := ih (Reader.fill { buffered := buffered, src := src }) acc (by
            simp only [Reader.fill, List.length_drop, List.length_append, List.length_take]
            split <;> omega)
          rw [fill_unread] at hih
          simp only [Reader.unread] at hih
          rw [hih.1, hih.2, splitAfter_append_none delim src buffered hb]
          cases splitAfter delim src with
          | none => simp
          | some pp => simp

/-- In `ReadString` returns the unread bytes up to and including the first
`delim`, or all of them with `EOF` when there is none, and leaves the rest. -/
theorem ReadString_spec (rd : Reader) (delim : Byte) :
    (rd.ReadString delim).1
        = (match splitAfter delim rd.unread with
          | some (pre, _) => (pre, none)
          | none => (rd.unread, some EOF))
      ∧ (rd.ReadString delim).2.unread
        = (match splitAfter delim rd.unread with
          | some (_, post) => post
          | none => []) := by
  have hs := ReadStringLoop_spec delim (2 * rd.src.length + 2) rd [] (by split <;> omega)
  simpa [Reader.ReadString] using hs


/-! ## Lemmas on the reader -/

theorem Uint32_take (l : List Byte) (n : Nat) (h : 4 ≤ n) :
    LittleEndian.Uint32 (l.take n) = LittleEndian.Uint32 l := by
  simp only [LittleEndian.Uint32, List.getD_eq_getElem?_getD]
  rw [List.getElem?_take_of_lt (by omega : 0 < n), List.getElem?_take_of_lt (by omega : 1 < n),
    List.getElem?_take_of_lt (by omega : 2 < n), List.getElem?_take_of_lt (by omega : 3 < n)]

theorem PeekUint32_NewReader (pkt : List Byte) (h : 4 ≤ pkt.length) :
    (NewReader pkt).PeekUint32
      = ((LittleEndian.Uint32 pkt, none),
          { buffered := pkt.take defaultBufSize, src := pkt.drop defaultBufSize }) := by
  have hD : 4 ≤ defaultBufSize := by decide
  have hlen : ¬ (pkt.take defaultBufSize).length < 4 := by
    rw [List.length_take]; omega
  simp only [Reader.PeekUint32, Reader.Peek, NewReader, Reader.fill, List.length_nil,
    Nat.sub_zero, List.nil_append]
  simp only [show (0 < 4 ∧ 0 < defaultBufSize) from ⟨by decide, by decide⟩, if_true,
    show ¬ 4 > defaultBufSize from by decide, if_false, hlen, and_self]
  rw [Uint32_take _ 4 (le_refl 4), Uint32_take _ _ hD]

theorem PeekUint32_short (pkt : List Byte) (h : pkt.length < 4) :
    (NewReader pkt).PeekUint32.1.2 = some EOF := by
  have hlen : (pkt.take defaultBufSize).length < 4 := by
    rw [List.length_take]; omega
  simp only [Reader.PeekUint32, Reader.Peek, NewReader, Reader.fill, List.length_nil,
    Nat.sub_zero, List.nil_append]
  simp only [show (0 < 4 ∧ 0 < defaultBufSize) from ⟨by decide, by decide⟩, if_true,
    show ¬ 4 > defaultBufSize from by decide, if_false, hlen, and_self]

theorem ReadUint32_buffered (rd : Reader) (h : 4 ≤ rd.buffered.length) :
    rd.ReadUint32
      = ((LittleEndian.Uint32 rd.buffered, none), { rd with buffered := rd.buffered.drop 4 }) := by
  obtain ⟨buffered, src⟩ := rd
  match buffered, h with
  | b0 :: b1 :: b2 :: b3 :: rest, _ =>
    simp [Reader.ReadUint32, ReadFull, ReadFullLoop, Reader.Read, copy, LittleEndian.Uint32]

/-! ## Lemmas on `process` -/

theorem shiftRight31_ne_zero (x : Nat) (h : x < 2 ^ 32) : (x >>> 31 != 0) = x.testBit 31 := by
  rw [Nat.testBit_to_div_mod, Nat.shiftRight_eq_div_pow]
  rcases (by omega : x / 2 ^ 31 = 0 ∨ x / 2 ^ 31 = 1) with h0 | h0 <;> rw [h0] <;> rfl

theorem and_bit30_ne_zero (x : Nat) : (x &&& (1 <<< 30) != 0) = x.testBit 30 := by
  rw [Nat.one_shiftLeft]
  cases hb : x.testBit 30 with
  | false =>
    have h0 : x &&& 2 ^ 30 = 0 := by
      apply Nat.eq_of_testBit_eq
      intro j
      rw [Nat.testBit_and, Nat.testBit_two_pow, Nat.zero_testBit]
      by_cases hj : 30 = j
      · subst hj; simp [hb]
      · simp [hj]
    rw [h0]
    rfl
  | true =>
    have h1 : (x &&& 2 ^ 30).testBit 30 = true := by
      rw [Nat.testBit_and, Nat.testBit_two_pow, hb]; simp
    have hne : x &&& 2 ^ 30 ≠ 0 := by
      intro h0
      rw [h0, Nat.zero_testBit] at h1
      exact Bool.noConfusion h1
    exact bne_iff_ne.mpr hne

theorem Uint32_lt (l : List Byte) : LittleEndian.Uint32 l < 2 ^ 32 := by
  have h0 := (l.getD 0 0).isLt
  have h1 := (l.getD 1 0).isLt
  have h2 := (l.getD 2 0).isLt
  have h3 := (l.getD 3 0).isLt
  simp only [LittleEndian.Uint32]
  omega

theorem processHead_eq (env : Env) (m : Mux) (pkt : List Byte) (client : UDPAddr)
    (h : 4 ≤ pkt.length) :
    m.processHead env pkt client
      = match m.connFor env client with
        | (some err, m1, conn, ev1) =>
          { err := some err, mux := m1, events := ev1, conn := some conn, cls := none,
            written := none }
        | (none, m1, conn, ev1) =>
          match m1.classify conn
              { buffered := pkt.take defaultBufSize, src := pkt.drop defaultBufSize }
              (LittleEndian.Uint32 pkt) with
          | (cls, m2, ev2) =>
            match m2.migrate env conn cls.isConnectionless with
            | (m3, ev3) =>
              { err := none, mux := m3, events := ev1 ++ ev2 ++ ev3, conn := some conn,
                cls := some cls, written := none } := by
  simp only [Mux.processHead]
  rw [PeekUint32_NewReader pkt h]

theorem process_eq (env : Env) (m : Mux) (pkt : List Byte) (client : UDPAddr)
    (h : 4 ≤ pkt.length) :
    m.process env (.ok (pkt, client))
      = match m.connFor env client with
        | (some err, m1, conn, ev1) =>
          { err := some err, mux := m1, events := ev1, conn := some conn, cls := none,
            written := none }
        | (none, m1, conn, ev1) =>
          match m1.classify conn
              { buffered := pkt.take defaultBufSize, src := pkt.drop defaultBufSize }
              (LittleEndian.Uint32 pkt) with
          | (cls, m2, ev2) =>
            match m2.migrate env conn cls.isConnectionless with
            | (m3, ev3) =>
              match m3.relay env conn pkt with
              | (werr, m4, ev4) =>
                { err := none, mux := m4, events := ev1 ++ ev2 ++ ev3 ++ ev4, conn := some conn,
                  cls := some cls, written := some werr } := by
  simp only [Mux.process]
  rw [processHead_eq env m pkt client h]
  rcases m.connFor env client with ⟨_ | err, m1, conn, ev1⟩
  · simp only [Mux.processTail]
  · simp only [Mux.processTail]

theorem classify_sequenced (m : Mux) (conn : Nat) (pkt : List Byte) (h8 : 8 ≤ pkt.length)
    (hm : LittleEndian.Uint32 pkt ≠ 0xffffffff) :
    m.classify conn { buffered := pkt.take defaultBufSize, src := pkt.drop defaultBufSize }
        (LittleEndian.Uint32 pkt)
      = (Class.sequenced (LittleEndian.Uint32 pkt) (LittleEndian.Uint32 (pkt.drop 4))
          ((LittleEndian.Uint32 pkt).testBit 31) ((LittleEndian.Uint32 (pkt.drop 4)).testBit 31)
          ((LittleEndian.Uint32 pkt).testBit 30), m, []) := by
  have hD : 8 ≤ defaultBufSize := by decide
  have hl1 : 4 ≤ (pkt.take defaultBufSize).length := by
    rw [List.length_take]; omega
  have hl2 : 4 ≤ ((pkt.take defaultBufSize).drop 4).length := by
    rw [List.length_drop, List.length_take]; omega
  have hseq : LittleEndian.Uint32 (pkt.take defaultBufSize) = LittleEndian.Uint32 pkt :=
    Uint32_take _ _ (by omega)
  have hack : LittleEndian.Uint32 ((pkt.take defaultBufSize).drop 4)
      = LittleEndian.Uint32 (pkt.drop 4) := by
    rw [List.drop_take]
    exact Uint32_take _ _ (by omega)
  simp only [Mux.classify, if_neg hm]
  rw [ReadUint32_buffered _ hl1]
  simp only
  rw [ReadUint32_buffered _ hl2]
  simp only
  rw [hseq, hack, shiftRight31_ne_zero _ (Uint32_lt _), shiftRight31_ne_zero _ (Uint32_lt _),
    and_bit30_ne_zero]

theorem applyNextUpstream_cases (env : Env) (c : Conn) :
    (∃ err, c.applyNextUpstream env = (some err, c, [Event.dialed c.NextUpstream false]))
    ∨ (∃ s, DialUDP env c.NextUpstream = .ok s ∧ c.applyNextUpstream env
        = (none, { c with upstreamConn := some s, nextUpstream := none },
            [Event.dialed c.NextUpstream true])) := by
  simp only [Conn.applyNextUpstream]
  cases h : DialUDP env c.NextUpstream with
  | error err => exact Or.inl ⟨err, rfl⟩
  | ok s => exact Or.inr ⟨s, rfl, rfl⟩

theorem connFor_events (env : Env) (m : Mux) (client : UDPAddr) :
    ∀ e ∈ (m.connFor env client).2.2.2,
      (∃ a ok, e = Event.dialed a ok) ∨ (∃ c, e = Event.forwarding c) := by
  intro e he
  simp only [Mux.connFor] at he
  cases hf : m.FindConnectionByClient client with
  | some conn => rw [hf] at he; simp at he
  | none =>
    rw [hf] at he
    simp only at he
    rcases applyNextUpstream_cases env ((m.newConn client).1.objs (m.newConn client).2) with
      ⟨err, h⟩ | ⟨s, _, h⟩
    · rw [h] at he
      simp only [List.mem_singleton] at he
      exact Or.inl ⟨_, _, he⟩
    · rw [h] at he
      simp only [List.mem_append, List.mem_singleton] at he
      rcases he with he | he
      · exact Or.inl ⟨_, _, he⟩
      · exact Or.inr ⟨_, he⟩

theorem Uint32_first_one (pkt : List Byte) (ht : pkt.take 4 = [1, 0, 0, 0]) :
    LittleEndian.Uint32 pkt = 1 ∧ (LittleEndian.Uint32 pkt).testBit 31 = false
      ∧ (LittleEndian.Uint32 pkt).testBit 30 = false := by
  have h1 : LittleEndian.Uint32 pkt = 1 := by
    rw [← Uint32_take pkt 4 (le_refl 4), ht]; rfl
  rw [h1]
  exact ⟨rfl, by decide, by decide⟩

theorem Stop_upstreamConn (c : Conn) : c.Stop.1.upstreamConn = none := by
  simp only [Conn.Stop]
  cases h : c.upstreamConn <;> simp [h]

theorem store_objs_same (m : Mux) (p : Nat) (c : Conn) : (m.store p c).objs p = c := by
  simp [Mux.store]

theorem classify_not_marker (m : Mux) (conn : Nat) (r : Reader) (peeked : Nat)
    (h : peeked ≠ 0xffffffff) :
    (m.classify conn r peeked).2 = (m, [])
      ∧ (m.classify conn r peeked).1.isConnectionless = false := by
  simp only [Mux.classify, if_neg h, Class.isConnectionless, and_self]

theorem connFor_found (env : Env) (m : Mux) (client : UDPAddr) (conn : Nat)
    (h : m.FindConnectionByClient client = some conn) :
    m.connFor env client = (none, m, conn, []) := by
  simp only [Mux.connFor, h]

theorem newConn_objs (m : Mux) (client : UDPAddr) :
    (m.newConn client).2 = m.nobjs
      ∧ (m.newConn client).1.objs m.nobjs
        = { timeout := m.timeout, client := client, upstreamConn := none,
            nextUpstream := m.defaultUpstream } := by
  simp [Mux.newConn, Mux.setConnection, Mux.store]

theorem connFor_new_ok (env : Env) (m : Mux) (client up : UDPAddr) (s : UDPConn)
    (hf : m.FindConnectionByClient client = none) (hup : m.defaultUpstream = some up)
    (hd : env.dial up = .ok s) :
    m.connFor env client
      = (none,
          (m.newConn client).1.store m.nobjs
            { timeout := m.timeout, client := client, upstreamConn := some s,
              nextUpstream := none },
          m.nobjs, [Event.dialed (some up) true, Event.forwarding m.nobjs]) := by
  obtain ⟨h1, h2⟩ := newConn_objs m client
  simp only [Mux.connFor, hf, h1, h2, Conn.applyNextUpstream, Conn.NextUpstream, hup, DialUDP,
    hd, List.singleton_append]

theorem connFor_new_failed (env : Env) (m : Mux) (client : UDPAddr) (e : Error)
    (hf : m.FindConnectionByClient client = none)
    (hd : DialUDP env m.defaultUpstream = .error e) :
    m.connFor env client
      = (some ("cannot connect to upstream: " ++ e),
          (m.newConn client).1.store m.nobjs
            { timeout := m.timeout, client := client, upstreamConn := none,
              nextUpstream := m.defaultUpstream },
          m.nobjs, [Event.dialed m.defaultUpstream false]) := by
  obtain ⟨h1, h2⟩ := newConn_objs m client
  simp only [Mux.connFor, hf, h1, h2, Conn.applyNextUpstream, Conn.NextUpstream, hd]

theorem migrate_sequenced (env : Env) (m : Mux) (conn : Nat) :
    m.migrate env conn false = (m, []) := by
  simp [Mux.migrate]

theorem migrate_events (env : Env) (m : Mux) (conn : Nat) (cl : Bool) :
    ∀ e ∈ (m.migrate env conn cl).2, ∃ s, e = Event.closed s := by
  intro e he
  simp only [Mux.migrate, Conn.Stop] at he
  split at he
  · cases hs : (m.objs conn).upstreamConn with
    | none => rw [hs] at he; simp at he
    | some s =>
      rw [hs] at he
      simp only [List.mem_singleton] at he
      exact ⟨s, he⟩
  · simp at he

theorem relay_socket (env : Env) (m : Mux) (conn : Nat) (pkt : List Byte) (s : UDPConn)
    (hs : (m.objs conn).upstreamConn = some s) :
    (m.relay env conn pkt).1 = env.write s pkt
      ∧ (m.relay env conn pkt).2.2
        = Event.wrote s pkt (env.write s pkt).isNone
            :: (if env.write s pkt = none then [] else [Event.closed s]) := by
  simp only [Mux.relay, Conn.Write, Conn.socket, hs, Conn.Stop]
  cases hw : env.write s pkt <;> simp

theorem relay_no_socket (env : Env) (m : Mux) (conn : Nat) (pkt : List Byte)
    (hs : (m.objs conn).upstreamConn = none) :
    (m.relay env conn pkt).1 = some errNotEstablished ∧ (m.relay env conn pkt).2.2 = [] := by
  simp [Mux.relay, Conn.Write, Conn.socket, hs, Conn.Stop]

theorem relay_events (env : Env) (m : Mux) (conn : Nat) (pkt : List Byte) :
    ∀ e ∈ (m.relay env conn pkt).2.2,
      (∃ s, e = Event.closed s) ∨ (∃ s ok, e = Event.wrote s pkt ok) := by
  intro e he
  cases hs : (m.objs conn).upstreamConn with
  | none =>
    rw [(relay_no_socket env m conn pkt hs).2] at he
    simp at he
  | some s =>
    rw [(relay_socket env m conn pkt s hs).2] at he
    simp only [List.mem_cons] at he
    rcases he with he | he
    · exact Or.inr ⟨_, _, he⟩
    · split at he
      · simp at he
      · simp only [List.mem_singleton] at he
        exact Or.inl ⟨_, he⟩

theorem relay_failed (env : Env) (m : Mux) (conn : Nat) (pkt : List Byte) (e : Error)
    (h : (m.relay env conn pkt).1 = some e) :
    ((m.relay env conn pkt).2.1.objs conn).upstreamConn = none := by
  simp only [Mux.relay] at h ⊢
  split
  · simp only [store_objs_same, Stop_upstreamConn]
  · rename_i hw
    rw [hw] at h
    simp at h

/-- What `process` does with a datagram that `classify` takes for `cls`, not
connectionless, whatever the state: the four ways it can go, by the
connection of the sender. -/
theorem process_not_connectionless (env : Env) (m : Mux) (pkt : List Byte) (client : UDPAddr)
    (cls : Class) (h4 : 4 ≤ pkt.length)
    (hcls : ∀ (m1 : Mux) (conn : Nat),
      m1.classify conn { buffered := pkt.take defaultBufSize, src := pkt.drop defaultBufSize }
        (LittleEndian.Uint32 pkt) = (cls, m1, []))
    (hnc : cls.isConnectionless = false) :
    (∀ conn s, m.FindConnectionByClient client = some conn →
      (m.objs conn).upstreamConn = some s →
      (m.process env (.ok (pkt, client))).err = none
        ∧ (m.process env (.ok (pkt, client))).cls = some cls
        ∧ (m.process env (.ok (pkt, client))).written = some (env.write s pkt)
        ∧ (m.process env (.ok (pkt, client))).events
          = Event.wrote s pkt (env.write s pkt).isNone
              :: (if env.write s pkt = none then [] else [Event.closed s]))
    ∧ (∀ conn, m.FindConnectionByClient client = some conn →
      (m.objs conn).upstreamConn = none →
      (m.process env (.ok (pkt, client))).err = none
        ∧ (m.process env (.ok (pkt, client))).cls = some cls
        ∧ (m.process env (.ok (pkt, client))).written = some (some errNotEstablished)
        ∧ (m.process env (.ok (pkt, client))).events = [])
    ∧ (∀ up s, m.FindConnectionByClient client = none → m.defaultUpstream = some up →
      env.dial up = .ok s →
      (m.process env (.ok (pkt, client))).err = none
        ∧ (m.process env (.ok (pkt, client))).cls = some cls
        ∧ (m.process env (.ok (pkt, client))).written = some (env.write s pkt)
        ∧ (m.process env (.ok (pkt, client))).events
          = Event.dialed (some up) true :: Event.forwarding m.nobjs
              :: Event.wrote s pkt (env.write s pkt).isNone
              :: (if env.write s pkt = none then [] else [Event.closed s]))
    ∧ (∀ e, m.FindConnectionByClient client = none →
      DialUDP env m.defaultUpstream = .error e →
      (m.process env (.ok (pkt, client))).err = some ("cannot connect to upstream: " ++ e)
        ∧ (m.process env (.ok (pkt, client))).cls = none
        ∧ (m.process env (.ok (pkt, client))).written = none
        ∧ (m.process env (.ok (pkt, client))).events
          = [Event.dialed m.defaultUpstream false]) := by
  rw [process_eq env m pkt client h4]
  refine ⟨?_, ?_, ?_, ?_⟩
  · intro conn s hf hs
    rw [connFor_found env m client conn hf]
    simp only [hcls, hnc, migrate_sequenced]
    obtain ⟨h1, h2⟩ := relay_socket env m conn pkt s hs
    rcases hr : m.relay env conn pkt with ⟨werr, m4, ev4⟩
    rw [hr] at h1 h2
    simp only at h1 h2 ⊢
    simp only [h1, h2, List.append_nil, List.nil_append, and_self]
  · intro conn hf hs
    rw [connFor_found env m client conn hf]
    simp only [hcls, hnc, migrate_sequenced]
    obtain ⟨h1, h2⟩ := relay_no_socket env m conn pkt hs
    rcases hr : m.relay env conn pkt with ⟨werr, m4, ev4⟩
    rw [hr] at h1 h2
    simp only at h1 h2 ⊢
    simp only [h1, h2, List.append_nil, and_self]
  · intro up s hf hup hd
    rw [connFor_new_ok env m client up s hf hup hd]
    simp only [hcls, hnc, migrate_sequenced]
    obtain ⟨h1, h2⟩ := relay_socket env
      ((m.newConn client).1.store m.nobjs
        { timeout := m.timeout, client := client, upstreamConn := some s,
          nextUpstream := none }) m.nobjs pkt s (by rw [store_objs_same])
    rcases hr : Mux.relay env ((m.newConn client).1.store m.nobjs
        { timeout := m.timeout, client := client, upstreamConn := some s,
          nextUpstream := none }) m.nobjs pkt with ⟨werr, m4, ev4⟩
    rw [hr] at h1 h2
    simp only at h1 h2 ⊢
    simp only [h1, h2, List.append_nil, List.cons_append, List.nil_append, and_self]
  · intro e hf hd
    rw [connFor_new_failed env m client e hf hd]
    simp only [and_self]

theorem process_unmarked_events (env : Env) (m : Mux) (pkt : List Byte) (client : UDPAddr)
    (h4 : 4 ≤ pkt.length) (hm : LittleEndian.Uint32 pkt ≠ 0xffffffff) :
    (∀ tag c, Event.handled tag c ∉ (m.process env (.ok (pkt, client))).events)
    ∧ (∀ s d ok, Event.wrote s d ok ∈ (m.process env (.ok (pkt, client))).events → d = pkt) := by
  have hev1 := connFor_events env m client
  rw [process_eq env m pkt client h4]
  rcases hc : m.connFor env client with ⟨_ | err, m1, conn, ev1⟩
  · rw [hc] at hev1
    simp only at hev1 ⊢
    obtain ⟨h1, h2⟩ := classify_not_marker m1 conn
      { buffered := pkt.take defaultBufSize, src := pkt.drop defaultBufSize }
      (LittleEndian.Uint32 pkt) hm
    rcases hcl : m1.classify conn
      { buffered := pkt.take defaultBufSize, src := pkt.drop defaultBufSize }
      (LittleEndian.Uint32 pkt) with ⟨cls, m2, ev2⟩
    rw [hcl] at h1 h2
    simp only [Prod.mk.injEq] at h1 h2
    obtain ⟨rfl, rfl⟩ := h1
    simp only [h2, migrate_sequenced]
    have hev4 := relay_events env m2 conn pkt
    rcases hr : m2.relay env conn pkt with ⟨werr, m4, ev4⟩
    rw [hr] at hev4
    simp only [List.append_nil, List.mem_append] at hev4 ⊢
    constructor
    · intro tag c hmem
      rcases hmem with hmem | hmem
      · rcases hev1 _ hmem with ⟨_, _, h⟩ | ⟨_, h⟩ <;> cases h
      · rcases hev4 _ hmem with ⟨_, h⟩ | ⟨_, _, h⟩ <;> cases h
    · intro s d ok hmem
      rcases hmem with hmem | hmem
      · rcases hev1 _ hmem with ⟨_, _, h⟩ | ⟨_, h⟩ <;> cases h
      · rcases hev4 _ hmem with ⟨_, h⟩ | ⟨_, _, h⟩
        · cases h
        · cases h; rfl
  · rw [hc] at hev1
    simp only at hev1 ⊢
    constructor
    · intro tag c hmem
      rcases hev1 _ hmem with ⟨_, _, h⟩ | ⟨_, h⟩ <;> cases h
    · intro s d ok hmem
      rcases hev1 _ hmem with ⟨_, _, h⟩ | ⟨_, h⟩ <;> cases h

/-- C9, as stated, fails. A sequenced datagram of ten bytes from a new
client whose dial fails: `process` returns the dial error, has classified
nothing and written nothing. The same datagram from a client whose connection
is in the table without a socket: it is classified, and nothing is written. -/
theorem sequenced_unclassified_or_unwritten :
    demoMux.FindConnectionByClient demoClient = none
    ∧ (demoMux.process (demoEnv false true true) (.ok (demoSequenced, demoClient))).err
        = some "cannot connect to upstream: dial udp: connect failed"
    ∧ (demoMux.process (demoEnv false true true) (.ok (demoSequenced, demoClient))).cls = none
    ∧ (demoMux.process (demoEnv false true true) (.ok (demoSequenced, demoClient))).events
        = [Event.dialed (some demoUpstream) false]
    ∧ demoUnestablished.FindConnectionByClient demoClient = some 0
    ∧ (demoUnestablished.objs 0).upstreamConn = none
    ∧ (demoUnestablished.process (demoEnv true true true)
        (.ok (demoSequenced, demoClient))).cls
        = some (Class.sequenced 1 0x80000000 false true false)
    ∧ (demoUnestablished.process (demoEnv true true true)
        (.ok (demoSequenced, demoClient))).events = [] := by
  decide

/-- C9, amended. A datagram `pkt` of at least 8 bytes whose first four
bytes, read as a little-endian uint32, are not 0xFFFFFFFF. No getchallenge
handler is called, and no write to an upstream carries anything but `pkt`.
By the connection of the sender:
* in the table with a socket `s`: `process` returns nil, has classified
  `pkt` as sequenced with seq and ack the little-endian uint32 of bytes 0..3
  and 4..7, seqReliable and ackReliable their bit 31 and fragmented bit 30 of
  seq, and has made one write, of `pkt`, on `s` (closing `s` when the write
  fails), and nothing else;
* in the table without a socket: the same return and classification, and
  nothing is written, `conn.Write` failing with the not-established error;
* not in the table, the dial to the default upstream yielding `s`: the same
  return and classification, and after the dial and the start of the
  forwarder the one write of `pkt` on `s`;
* not in the table, the dial failing with `e`: `process` returns
  "cannot connect to upstream: e" and has classified and written nothing.
First bytes 01 00 00 00 give seq 1, not reliable, not fragmented. -/
theorem process_sequenced (env : Env) (m : Mux) (pkt : List Byte) (client : UDPAddr)
    (h8 : 8 ≤ pkt.length) (hm : LittleEndian.Uint32 pkt ≠ 0xffffffff) :
    (∀ tag c, Event.handled tag c ∉ (m.process env (.ok (pkt, client))).events)
    ∧ (∀ s d ok, Event.wrote s d ok ∈ (m.process env (.ok (pkt, client))).events → d = pkt)
    ∧ (∀ conn s, m.FindConnectionByClient client = some conn →
      (m.objs conn).upstreamConn = some s →
      (m.process env (.ok (pkt, client))).err = none
        ∧ (m.process env (.ok (pkt, client))).cls
          = some (Class.sequenced (LittleEndian.Uint32 pkt) (LittleEndian.Uint32 (pkt.drop 4))
              ((LittleEndian.Uint32 pkt).testBit 31)
              ((LittleEndian.Uint32 (pkt.drop 4)).testBit 31)
              ((LittleEndian.Uint32 pkt).testBit 30))
        ∧ (m.process env (.ok (pkt, client))).written = some (env.write s pkt)
        ∧ (m.process env (.ok (pkt, client))).events
          = Event.wrote s pkt (env.write s pkt).isNone
              :: (if env.write s pkt = none then [] else [Event.closed s]))
    ∧ (∀ conn, m.FindConnectionByClient client = some conn →
      (m.objs conn).upstreamConn = none →
      (m.process env (.ok (pkt, client))).err = none
        ∧ (m.process env (.ok (pkt, client))).cls
          = some (Class.sequenced (LittleEndian.Uint32 pkt) (LittleEndian.Uint32 (pkt.drop 4))
              ((LittleEndian.Uint32 pkt).testBit 31)
              ((LittleEndian.Uint32 (pkt.drop 4)).testBit 31)
              ((LittleEndian.Uint32 pkt).testBit 30))
        ∧ (m.process env (.ok (pkt, client))).written = some (some errNotEstablished)
        ∧ (m.process env (.ok (pkt, client))).events = [])
    ∧ (∀ up s, m.FindConnectionByClient client = none → m.defaultUpstream = some up →
      env.dial up = .ok s →
      (m.process env (.ok (pkt, client))).err = none
        ∧ (m.process env (.ok (pkt, client))).cls
          = some (Class.sequenced (LittleEndian.Uint32 pkt) (LittleEndian.Uint32 (pkt.drop 4))
              ((LittleEndian.Uint32 pkt).testBit 31)
              ((LittleEndian.Uint32 (pkt.drop 4)).testBit 31)
              ((LittleEndian.Uint32 pkt).testBit 30))
        ∧ (m.process env (.ok (pkt, client))).written = some (env.write s pkt)
        ∧ (m.process env (.ok (pkt, client))).events
          = Event.dialed (some up) true :: Event.forwarding m.nobjs
              :: Event.wrote s pkt (env.write s pkt).isNone
              :: (if env.write s pkt = none then [] else [Event.closed s]))
    ∧ (∀ e, m.FindConnectionByClient client = none →
      DialUDP env m.defaultUpstream = .error e →
      (m.process env (.ok (pkt, client))).err = some ("cannot connect to upstream: " ++ e)
        ∧ (m.process env (.ok (pkt, client))).cls = none
        ∧ (m.process env (.ok (pkt, client))).written = none
        ∧ (m.process env (.ok (pkt, client))).events
          = [Event.dialed m.defaultUpstream false])
    ∧ (pkt.take 4 = [1, 0, 0, 0] →
        LittleEndian.Uint32 pkt = 1 ∧ (LittleEndian.Uint32 pkt).testBit 31 = false
          ∧ (LittleEndian.Uint32 pkt).testBit 30 = false) := by
  obtain ⟨he1, he2⟩ := process_unmarked_events env m pkt client (by omega) hm
  obtain ⟨hA, hB, hC, hD⟩ := process_not_connectionless env m pkt client _ (by omega)
    (fun m1 conn => classify_sequenced m1 conn pkt h8 hm) rfl
  exact ⟨he1, he2, hA, hB, hC, hD, Uint32_first_one pkt⟩

/-- C9, amended, at concrete inputs: the datagram `demoSequenced` from
`demoClient`, whose connection is in the table with the socket `demoSocket`,
in the table without socket, new with a dial that succeeds, and new with a
dial that fails. -/
theorem process_sequenced_witness :
    (8 ≤ demoSequenced.length ∧ LittleEndian.Uint32 demoSequenced ≠ 0xffffffff)
    ∧ (demoEstablished.FindConnectionByClient demoClient = some 0
      ∧ (demoEstablished.objs 0).upstreamConn = some demoSocket
      ∧ (demoEstablished.process (demoEnv true true true)
          (.ok (demoSequenced, demoClient))).cls
          = some (Class.sequenced 1 0x80000000 false true false)
      ∧ (demoEstablished.process (demoEnv true true true)
          (.ok (demoSequenced, demoClient))).events
          = [Event.wrote demoSocket demoSequenced true])
    ∧ (demoUnestablished.FindConnectionByClient demoClient = some 0
      ∧ (demoUnestablished.objs 0).upstreamConn = none
      ∧ (demoUnestablished.process (demoEnv true true true)
          (.ok (demoSequenced, demoClient))).events = [])
    ∧ (demoMux.FindConnectionByClient demoClient = none
      ∧ demoMux.defaultUpstream = some demoUpstream
      ∧ (demoEnv true false true).dial demoUpstream = .ok demoSocket
      ∧ (demoMux.process (demoEnv true false true) (.ok (demoSequenced, demoClient))).events
          = [Event.dialed (some demoUpstream) true, Event.forwarding 0,
              Event.wrote demoSocket demoSequenced false, Event.closed demoSocket])
    ∧ (DialUDP (demoEnv false true true) demoMux.defaultUpstream
          = .error "dial udp: connect failed"
      ∧ (demoMux.process (demoEnv false true true) (.ok (demoSequenced, demoClient))).err
          = some ("cannot connect to upstream: " ++ "dial udp: connect failed")) :=
  ⟨⟨by decide, by decide⟩,
    ⟨by decide, by decide,
      ((process_sequenced (demoEnv true true true) demoEstablished demoSequenced demoClient
        (by decide) (by decide)).2.2.1 0 demoSocket (by decide) (by decide)).2.1.trans
        (by decide),
      ((process_sequenced (demoEnv true true true) demoEstablished demoSequenced demoClient
        (by decide) (by decide)).2.2.1 0 demoSocket (by decide) (by decide)).2.2.2.trans
        (by decide)⟩,
    ⟨by decide, by decide,
      ((process_sequenced (demoEnv true true true) demoUnestablished demoSequenced demoClient
        (by decide) (by decide)).2.2.2.1 0 (by decide) (by decide)).2.2.2⟩,
    ⟨by decide, by decide, rfl,
      ((process_sequenced (demoEnv true false true) demoMux demoSequenced demoClient
        (by decide) (by decide)).2.2.2.2.1 demoUpstream demoSocket (by decide) (by decide)
        rfl).2.2.2.trans (by decide)⟩,
    ⟨rfl,
      ((process_sequenced (demoEnv false true true) demoMux demoSequenced demoClient
        (by decide) (by decide)).2.2.2.2.2.1 "dial udp: connect failed" (by decide)
        rfl).1⟩⟩

theorem ReadUint32_short (rd : Reader) (h : rd.buffered.length < 4) (hs : rd.src = []) :
    rd.ReadUint32.1.1 = 0 := by
  obtain ⟨buffered, src⟩ := rd
  simp only at h hs
  subst hs
  match buffered, h with
  | [], _ => simp [Reader.ReadUint32, ReadFull, ReadFullLoop, Reader.Read]
  | [b0], _ =>
    simp [Reader.ReadUint32, ReadFull, ReadFullLoop, Reader.Read, EOF, ErrUnexpectedEOF]
  | [b0, b1], _ =>
    simp [Reader.ReadUint32, ReadFull, ReadFullLoop, Reader.Read, EOF, ErrUnexpectedEOF]
  | [b0, b1, b2], _ =>
    simp [Reader.ReadUint32, ReadFull, ReadFullLoop, Reader.Read, EOF, ErrUnexpectedEOF]

theorem classify_short (m : Mux) (conn : Nat) (pkt : List Byte) (h4 : 4 ≤ pkt.length)
    (h7 : pkt.length ≤ 7) (hm : LittleEndian.Uint32 pkt ≠ 0xffffffff) :
    m.classify conn { buffered := pkt.take defaultBufSize, src := pkt.drop defaultBufSize }
        (LittleEndian.Uint32 pkt)
      = (Class.sequenced (LittleEndian.Uint32 pkt) 0 ((LittleEndian.Uint32 pkt).testBit 31)
          false ((LittleEndian.Uint32 pkt).testBit 30), m, []) := by
  have hD : pkt.length ≤ defaultBufSize := le_trans h7 (by decide)
  have htake : pkt.take defaultBufSize = pkt := List.take_of_length_le hD
  have hdrop : pkt.drop defaultBufSize = [] := List.drop_eq_nil_of_le hD
  rw [htake, hdrop]
  simp only [Mux.classify, if_neg hm]
  rw [ReadUint32_buffered { buffered := pkt, src := [] } h4]
  simp only
  rw [ReadUint32_short { buffered := pkt.drop 4, src := [] }
    (by simp only [List.length_drop]; omega) rfl]
  rw [shiftRight31_ne_zero _ (Uint32_lt _), and_bit30_ne_zero]
  rfl

/-- C7, as stated, fails: a sequenced datagram of four bytes, whose ack
cannot be read, is written to the upstream socket of its connection. -/
theorem short_sequenced_is_forwarded :
    (demoEstablished.objs 0).upstreamConn = some demoSocket
    ∧ Event.wrote demoSocket [1, 0, 0, 0] true
        ∈ (demoEstablished.process (demoEnv true true true)
            (.ok ([1, 0, 0, 0], demoClient))).events := by
  decide

/-- C7, amended. A datagram of fewer than 4 bytes is dropped: `process`
returns the error of the peek, and nothing is dialled, closed or written. A
sequenced datagram `pkt` of 4 to 7 bytes is not dropped for being short: the
errors of the reads of seq and ack are ignored (ack is taken to be 0) and
`process` goes on as for any sequenced datagram. By the connection of the
sender:
* in the table with a socket `s`: `process` returns nil and has made one
  write, of `pkt`, on `s` (closing `s` when the write fails);
* in the table without a socket: `process` returns nil and nothing is
  written, `conn.Write` failing with the not-established error;
* not in the table, the dial to the default upstream yielding `s`:
  `process` returns nil and, after the dial and the start of the forwarder,
  has made the one write of `pkt` on `s`;
* not in the table, the dial failing with `e`: `process` returns
  "cannot connect to upstream: e" and nothing is written. -/
theorem process_short_datagram (env : Env) (m : Mux) (pkt : List Byte) (client : UDPAddr) :
    (pkt.length < 4 →
      (m.process env (.ok (pkt, client))).err = some EOF
        ∧ (m.process env (.ok (pkt, client))).events = []
        ∧ (m.process env (.ok (pkt, client))).written = none)
    ∧ (4 ≤ pkt.length → pkt.length ≤ 7 → LittleEndian.Uint32 pkt ≠ 0xffffffff →
      (∀ conn s, m.FindConnectionByClient client = some conn →
        (m.objs conn).upstreamConn = some s →
        (m.process env (.ok (pkt, client))).err = none
          ∧ (m.process env (.ok (pkt, client))).cls
            = some (Class.sequenced (LittleEndian.Uint32 pkt) 0
                ((LittleEndian.Uint32 pkt).testBit 31) false
                ((LittleEndian.Uint32 pkt).testBit 30))
          ∧ (m.process env (.ok (pkt, client))).written = some (env.write s pkt)
          ∧ (m.process env (.ok (pkt, client))).events
            = Event.wrote s pkt (env.write s pkt).isNone
                :: (if env.write s pkt = none then [] else [Event.closed s]))
      ∧ (∀ conn, m.FindConnectionByClient client = some conn →
        (m.objs conn).upstreamConn = none →
        (m.process env (.ok (pkt, client))).err = none
          ∧ (m.process env (.ok (pkt, client))).cls
            = some (Class.sequenced (LittleEndian.Uint32 pkt) 0
                ((LittleEndian.Uint32 pkt).testBit 31) false
                ((LittleEndian.Uint32 pkt).testBit 30))
          ∧ (m.process env (.ok (pkt, client))).written = some (some errNotEstablished)
          ∧ (m.process env (.ok (pkt, client))).events = [])
      ∧ (∀ up s, m.FindConnectionByClient client = none → m.defaultUpstream = some up →
        env.dial up = .ok s →
        (m.process env (.ok (pkt, client))).err = none
          ∧ (m.process env (.ok (pkt, client))).cls
            = some (Class.sequenced (LittleEndian.Uint32 pkt) 0
                ((LittleEndian.Uint32 pkt).testBit 31) false
                ((LittleEndian.Uint32 pkt).testBit 30))
          ∧ (m.process env (.ok (pkt, client))).written = some (env.write s pkt)
          ∧ (m.process env (.ok (pkt, client))).events
            = Event.dialed (some up) true :: Event.forwarding m.nobjs
                :: Event.wrote s pkt (env.write s pkt).isNone
                :: (if env.write s pkt = none then [] else [Event.closed s]))
      ∧ (∀ e, m.FindConnectionByClient client = none →
        DialUDP env m.defaultUpstream = .error e →
        (m.process env (.ok (pkt, client))).err = some ("cannot connect to upstream: " ++ e)
          ∧ (m.process env (.ok (pkt, client))).cls = none
          ∧ (m.process env (.ok (pkt, client))).written = none
          ∧ (m.process env (.ok (pkt, client))).events
            = [Event.dialed m.defaultUpstream false])) := by
  constructor
  · intro hlt
    have hp := PeekUint32_short pkt hlt
    simp only [Mux.process, Mux.processHead]
    split
    · rename_i err rd heq
      rw [heq] at hp
      simp only [Option.some.injEq] at hp
      subst hp
      exact ⟨rfl, rfl, rfl⟩
    · rename_i heq
      rw [heq] at hp
      simp at hp
  · intro h4 h7 hm
    exact process_not_connectionless env m pkt client _ h4
      (fun m1 conn => classify_short m1 conn pkt h4 h7 hm) rfl

/-- C7, amended, at concrete inputs: a datagram of three bytes, and the
sequenced datagram 01 00 00 00 from `demoClient`, whose connection is in the
table with the socket `demoSocket`, in the table without socket, new with a
dial that succeeds, and new with a dial that fails. -/
theorem process_short_datagram_witness :
    (([1, 0, 0] : List Byte).length < 4
      ∧ (demoEstablished.process (demoEnv true true true) (.ok ([1, 0, 0], demoClient))).err
          = some EOF
      ∧ (demoEstablished.process (demoEnv true true true) (.ok ([1, 0, 0], demoClient))).events
          = []
      ∧ (demoEstablished.process (demoEnv true true true) (.ok ([1, 0, 0], demoClient))).written
          = none)
    ∧ (LittleEndian.Uint32 [1, 0, 0, 0] ≠ 0xffffffff
      ∧ demoEstablished.FindConnectionByClient demoClient = some 0
      ∧ (demoEstablished.objs 0).upstreamConn = some demoSocket
      ∧ (demoEstablished.process (demoEnv true true true)
          (.ok ([1, 0, 0, 0], demoClient))).events = [Event.wrote demoSocket [1, 0, 0, 0] true])
    ∧ (demoUnestablished.FindConnectionByClient demoClient = some 0
      ∧ (demoUnestablished.objs 0).upstreamConn = none
      ∧ (demoUnestablished.process (demoEnv true true true)
          (.ok ([1, 0, 0, 0], demoClient))).events = [])
    ∧ (demoMux.FindConnectionByClient demoClient = none
      ∧ demoMux.defaultUpstream = some demoUpstream
      ∧ (demoEnv true true true).dial demoUpstream = .ok demoSocket
      ∧ (demoMux.process (demoEnv true true true) (.ok ([1, 0, 0, 0], demoClient))).events
          = [Event.dialed (some demoUpstream) true, Event.forwarding 0,
              Event.wrote demoSocket [1, 0, 0, 0] true])
    ∧ (DialUDP (demoEnv false true true) demoMux.defaultUpstream
          = .error "dial udp: connect failed"
      ∧ (demoMux.process (demoEnv false true true) (.ok ([1, 0, 0, 0], demoClient))).err
          = some ("cannot connect to upstream: " ++ "dial udp: connect failed")) :=
  ⟨⟨by decide,
      (process_short_datagram (demoEnv true true true) demoEstablished [1, 0, 0] demoClient).1
        (by decide)⟩,
    ⟨by decide, by decide, by decide,
      (((process_short_datagram (demoEnv true true true) demoEstablished [1, 0, 0, 0]
        demoClient).2 (by decide) (by decide) (by decide)).1 0 demoSocket (by decide)
        (by decide)).2.2.2.trans (by decide)⟩,
    ⟨by decide, by decide,
      (((process_short_datagram (demoEnv true true true) demoUnestablished [1, 0, 0, 0]
        demoClient).2 (by decide) (by decide) (by decide)).2.1 0 (by decide)
        (by decide)).2.2.2⟩,
    ⟨by decide, by decide, rfl,
      (((process_short_datagram (demoEnv true true true) demoMux [1, 0, 0, 0]
        demoClient).2 (by decide) (by decide) (by decide)).2.2.1 demoUpstream demoSocket
        (by decide) (by decide) rfl).2.2.2.trans (by decide)⟩,
    ⟨rfl,
      (((process_short_datagram (demoEnv false true true) demoMux [1, 0, 0, 0]
        demoClient).2 (by decide) (by decide) (by decide)).2.2.2 "dial udp: connect failed"
        (by decide) rfl).1⟩⟩

theorem classify_getchallenge_newline (m : Mux) (conn : Nat) :
    m.classify conn
        { buffered := getchallengePkt.take defaultBufSize,
          src := getchallengePkt.drop defaultBufSize }
        (LittleEndian.Uint32 getchallengePkt)
      = (Class.connectionless [str "getchallenge\n"], m, []) := by
  have h1 : LittleEndian.Uint32 getchallengePkt = 0xffffffff := by decide
  have h2 : tokenize ((((Reader.mk (getchallengePkt.take defaultBufSize)
      (getchallengePkt.drop defaultBufSize)).ReadUint32).2.ReadString 0x0a).1.1)
      = [str "getchallenge\n"] := by decide
  have h3 : ¬ (([str "getchallenge\n"] : List (List Byte)).headD [] = str "getchallenge") := by
    decide
  simp only [Mux.classify, if_pos h1, h2, if_neg h3]

/-- C3 (the code departs from the claim). The datagram
`FF FF FF FF "getchallenge\n"` is classified as connectionless, but its
command token is `"getchallenge\n"`, the newline included, so that the case
`"getchallenge"` of `process` does not apply: whatever the state, the
environment and the sender, no handler is called. With the two handlers of
`demoMux` the events are a dial, the start of the forwarder and the write;
the handlers are called, in order and before the write, when a space follows
the command, as in `FF FF FF FF "getchallenge steam\n"`. -/
theorem getchallenge_newline_calls_no_handler :
    (∀ (env : Env) (m : Mux) (client : UDPAddr) (tag c : Nat),
      Event.handled tag c ∉ (m.process env (.ok (getchallengePkt, client))).events)
    ∧ demoMux.getchallengeChains.map HandlerFunc.tag = [1, 2]
    ∧ (demoMux.process (demoEnv true true true) (.ok (getchallengePkt, demoClient))).cls
        = some (Class.connectionless [str "getchallenge\n"])
    ∧ (demoMux.process (demoEnv true true true) (.ok (getchallengePkt, demoClient))).events
        = [Event.dialed (some demoUpstream) true, Event.forwarding 0,
            Event.wrote demoSocket getchallengePkt true]
    ∧ (demoMux.process (demoEnv true true true)
        (.ok ([0xff, 0xff, 0xff, 0xff] ++ str "getchallenge steam\n", demoClient))).events
        = [Event.dialed (some demoUpstream) true, Event.forwarding 0, Event.handled 1 0,
            Event.handled 2 0,
            Event.wrote demoSocket ([0xff, 0xff, 0xff, 0xff] ++ str "getchallenge steam\n")
              true] := by
  refine ⟨?_, by decide, by decide, by decide, by decide⟩
  intro env m client tag c hmem
  have hev1 := connFor_events env m client
  rw [process_eq env m getchallengePkt client (by decide)] at hmem
  rcases hc : m.connFor env client with ⟨_ | err, m1, conn, ev1⟩
  · rw [hc] at hev1 hmem
    simp only at hev1 hmem
    rw [classify_getchallenge_newline m1 conn] at hmem
    simp only [Class.isConnectionless] at hmem
    have hev3 := migrate_events env m1 conn true
    rcases hmg : m1.migrate env conn true with ⟨m3, ev3⟩
    rw [hmg] at hev3 hmem
    have hev4 := relay_events env m3 conn getchallengePkt
    rcases hr : m3.relay env conn getchallengePkt with ⟨werr, m4, ev4⟩
    rw [hr] at hev4 hmem
    simp only [List.append_nil, List.mem_append] at hev3 hev4 hmem
    rcases hmem with (hmem | hmem) | hmem
    · rcases hev1 _ hmem with ⟨_, _, h⟩ | ⟨_, h⟩ <;> cases h
    · obtain ⟨_, h⟩ := hev3 _ hmem
      cases h
    · rcases hev4 _ hmem with ⟨_, h⟩ | ⟨_, _, h⟩ <;> cases h
  · rw [hc] at hev1 hmem
    simp only at hev1 hmem
    rcases hev1 _ hmem with ⟨_, _, h⟩ | ⟨_, h⟩ <;> cases h

/-- C6, as stated, fails: the upstream write of `process` fails, once on a
socket and once for want of a socket, and `process` returns nil. -/
theorem process_write_failure_returns_nil :
    (demoMux.process (demoEnv true false true) (.ok ([1, 0, 0, 0], demoClient))).written
        = some (some "write: failed")
    ∧ (demoMux.process (demoEnv true false true) (.ok ([1, 0, 0, 0], demoClient))).err = none
    ∧ ((demoMux.process (demoEnv false true true) (.ok ([1, 0, 0, 0], demoClient))).mux.process
          (demoEnv false true true) (.ok ([1, 0, 0, 0], demoClient))).written
        = some (some errNotEstablished)
    ∧ ((demoMux.process (demoEnv false true true) (.ok ([1, 0, 0, 0], demoClient))).mux.process
          (demoEnv false true true) (.ok ([1, 0, 0, 0], demoClient))).err = none := by
  decide

/-- C6, amended. Whenever `conn.Write` fails inside `process` (the case of
no socket included), the connection has no upstream socket afterwards, and
`process` returns nil: the write error does not reach the caller. -/
theorem process_write_failure_stops (env : Env) (m : Mux)
    (recv : Except Error (List Byte × UDPAddr)) (e : Error)
    (h : (m.process env recv).written = some (some e)) :
    (m.process env recv).err = none
    ∧ ∃ conn, (m.process env recv).conn = some conn
        ∧ ((m.process env recv).mux.objs conn).upstreamConn = none := by
  cases recv with
  | error err => simp [Mux.process] at h
  | ok pc =>
    obtain ⟨pkt, client⟩ := pc
    simp only [Mux.process, Mux.processTail] at h ⊢
    split at h
    · rename_i conn herr hconn
      simp only [Option.some.injEq] at h
      rw [herr, hconn]
      exact ⟨rfl, conn, rfl, relay_failed env _ conn pkt e h⟩
    · rename_i hno
      have hw : (m.processHead env pkt client).written = none := by
        simp only [Mux.processHead]
        split
        · rfl
        · split
          · rfl
          · rfl
      rw [hw] at h
      simp at h

/-- C6, amended, at a concrete input: the write on the socket of a new
connection fails. -/
theorem process_write_failure_stops_witness :
    (demoMux.process (demoEnv true false true) (.ok ([1, 0, 0, 0], demoClient))).written
        = some (some "write: failed")
    ∧ (demoMux.process (demoEnv true false true) (.ok ([1, 0, 0, 0], demoClient))).err = none
    ∧ ∃ conn, (demoMux.process (demoEnv true false true)
          (.ok ([1, 0, 0, 0], demoClient))).conn = some conn
        ∧ ((demoMux.process (demoEnv true false true)
          (.ok ([1, 0, 0, 0], demoClient))).mux.objs conn).upstreamConn = none :=
  ⟨by decide,
    process_write_failure_stops (demoEnv true false true) demoMux
      (.ok ([1, 0, 0, 0], demoClient)) "write: failed" (by decide)⟩

theorem delete_Find (m : Mux) (client : UDPAddr) :
    (m.delete client).FindConnectionByClient client = none := by
  simp [Mux.delete, Mux.FindConnectionByClient]

/-- C8, as stated, fails: the forwarder of an established connection ends on
a failed write to the client, on a failed dial for a pending upstream, and on
finding no socket at the top of its loop, and each time the connection is
deleted from the table. -/
theorem forwarder_other_outcomes_delete :
    demoEstablished.FindConnectionByClient demoClient = some 0
    ∧ (demoEstablished.forwarder (demoEnv true true false) demoClient 0 [.ok [7]]).1
        = some "write to client from upstream error: sendto: failed"
    ∧ (demoEstablished.forwarder (demoEnv true true false) demoClient 0
        [.ok [7]]).2.1.FindConnectionByClient demoClient = none
    ∧ ((demoEstablished.store 0 ((demoEstablished.objs 0).SetNextUpstream (some demoOther))).forwarder
        (demoEnv false true true) demoClient 0 [.error "closed"]).1
        = some "dial udp: connect failed"
    ∧ ((demoEstablished.store 0 ((demoEstablished.objs 0).SetNextUpstream (some demoOther))).forwarder
        (demoEnv false true true) demoClient 0 [.error "closed"]).2.1.FindConnectionByClient
          demoClient = none
    ∧ ((demoEstablished.store 0 (demoEstablished.objs 0).Stop.1).forwarder
        (demoEnv true true true) demoClient 0 []).1 = some "no upstream candidates available"
    ∧ ((demoEstablished.store 0 (demoEstablished.objs 0).Stop.1).forwarder
        (demoEnv true true true) demoClient 0 []).2.1.FindConnectionByClient demoClient
          = none := by
  decide

theorem RunForward_no_socket (env : Env) (c : Conn) (socks : List (Except Error (List Byte)))
    (h : c.upstreamConn = none) :
    (c.RunForward env socks).1 = some "no upstream candidates available" := by
  cases socks with
  | nil => simp [Conn.RunForward, Conn.Upstream, Conn.socket, h]
  | cons sock rest => simp [Conn.RunForward, Conn.round, Conn.Upstream, Conn.socket, h]

/-- C8, amended. A connection is deleted from the table whenever its
forwarder returns, and left in it as long as the forwarder runs; the
forwarder returns, each time with an error, in all four of its outcomes: no
socket at the top of the loop, a failed upstream read with no pending
upstream, a failed dial for the pending upstream after a failed read, and a
failed write to the client. -/
theorem forwarder_return_deletes (env : Env) (m : Mux) (client : UDPAddr) (conn : Nat) :
    (∀ socks err, (m.forwarder env client conn socks).1 = some err →
      (m.forwarder env client conn socks).2.1.FindConnectionByClient client = none)
    ∧ (∀ socks, (m.forwarder env client conn socks).1 = none →
      (m.forwarder env client conn socks).2.1.conns = m.conns)
    ∧ (∀ socks, (m.objs conn).upstreamConn = none →
      (m.forwarder env client conn socks).1 = some "no upstream candidates available")
    ∧ (∀ s e rest, (m.objs conn).upstreamConn = some s → (m.objs conn).nextUpstream = none →
      (m.forwarder env client conn (.error e :: rest)).1
        = some ("read from upstream error: " ++ e))
    ∧ (∀ s e X de rest, (m.objs conn).upstreamConn = some s →
      (m.objs conn).nextUpstream = some X → env.dial X = .error de →
      (m.forwarder env client conn (.error e :: rest)).1 = some de)
    ∧ (∀ s data e rest, (m.objs conn).upstreamConn = some s →
      env.send data (m.objs conn).client = some e →
      (m.forwarder env client conn (.ok data :: rest)).1
        = some ("write to client from upstream error: " ++ e)) := by
  refine ⟨?_, ?_, ?_, ?_, ?_, ?_⟩
  · intro socks err h
    simp only [Mux.forwarder] at h ⊢
    split
    · exact delete_Find _ _
    · rename_i heq
      rw [heq] at h
      simp at h
  · intro socks h
    simp only [Mux.forwarder] at h ⊢
    split
    · rename_i heq
      rw [heq] at h
      simp at h
    · rfl
  · intro socks h
    have := RunForward_no_socket env (m.objs conn) socks h
    simp only [Mux.forwarder]
    split
    · rename_i heq
      rw [heq] at this
      exact this
    · rename_i heq
      rw [heq] at this
      simp at this
  · intro s e rest hs hn
    simp [Mux.forwarder, Conn.RunForward, Conn.round, Conn.Upstream, Conn.socket, hs,
      Conn.Read, Conn.afterRead, Conn.Stop, Conn.NextUpstream, hn]
  · intro s e X de rest hs hn hd
    simp [Mux.forwarder, Conn.RunForward, Conn.round, Conn.Upstream, Conn.socket, hs,
      Conn.Read, Conn.afterRead, Conn.Stop, Conn.NextUpstream, hn, Conn.applyNextUpstream,
      DialUDP, hd]
  · intro s data e rest hs hd
    simp [Mux.forwarder, Conn.RunForward, Conn.round, Conn.Upstream, Conn.socket, hs,
      Conn.Read, Conn.afterRead, Conn.Stop, hd]

/-- C8, amended, at concrete inputs: the four outcomes of the forwarder of
the connection of `demoClient`. -/
theorem forwarder_return_deletes_witness :
    ((demoEstablished.forwarder (demoEnv true true false) demoClient 0 [.ok [7]]).1
        = some "write to client from upstream error: sendto: failed"
      ∧ (demoEstablished.forwarder (demoEnv true true false) demoClient 0
          [.ok [7]]).2.1.FindConnectionByClient demoClient = none)
    ∧ ((demoEstablished.forwarder (demoEnv true true true) demoClient 0 [.ok [7]]).1 = none
      ∧ (demoEstablished.forwarder (demoEnv true true true) demoClient 0 [.ok [7]]).2.1.conns
          = demoEstablished.conns)
    ∧ (((demoEstablished.store 0 (demoEstablished.objs 0).Stop.1).objs 0).upstreamConn = none
      ∧ ((demoEstablished.store 0 (demoEstablished.objs 0).Stop.1).forwarder
          (demoEnv true true true) demoClient 0 []).1 = some "no upstream candidates available")
    ∧ ((demoEstablished.objs 0).upstreamConn = some demoSocket
      ∧ (demoEstablished.objs 0).nextUpstream = none
      ∧ (demoEstablished.forwarder (demoEnv true true true) demoClient 0 [.error "closed"]).1
          = some ("read from upstream error: " ++ "closed"))
    ∧ (((demoEstablished.store 0 ((demoEstablished.objs 0).SetNextUpstream
          (some demoOther))).objs 0).nextUpstream = some demoOther
      ∧ (demoEnv false true true).dial demoOther = .error "dial udp: connect failed"
      ∧ ((demoEstablished.store 0 ((demoEstablished.objs 0).SetNextUpstream
          (some demoOther))).forwarder (demoEnv false true true) demoClient 0
            [.error "closed"]).1 = some "dial udp: connect failed")
    ∧ ((demoEnv true true false).send [7] (demoEstablished.objs 0).client
          = some "sendto: failed"
      ∧ (demoEstablished.forwarder (demoEnv true true false) demoClient 0 [.ok [7]]).1
          = some ("write to client from upstream error: " ++ "sendto: failed")) :=
  ⟨⟨by decide,
      (forwarder_return_deletes (demoEnv true true false) demoEstablished demoClient 0).1
        [.ok [7]] "write to client from upstream error: sendto: failed" (by decide)⟩,
    ⟨by decide,
      (forwarder_return_deletes (demoEnv true true true) demoEstablished demoClient 0).2.1
        [.ok [7]] (by decide)⟩,
    ⟨by decide,
      (forwarder_return_deletes (demoEnv true true true)
        (demoEstablished.store 0 (demoEstablished.objs 0).Stop.1) demoClient 0).2.2.1
        [] (by decide)⟩,
    ⟨by decide, by decide,
      (forwarder_return_deletes (demoEnv true true true) demoEstablished demoClient 0).2.2.2.1
        demoSocket "closed" [] (by decide) (by decide)⟩,
    ⟨by decide, rfl,
      (forwarder_return_deletes (demoEnv false true true)
        (demoEstablished.store 0 ((demoEstablished.objs 0).SetNextUpstream (some demoOther)))
        demoClient 0).2.2.2.2.1 demoSocket "closed" demoOther "dial udp: connect failed" []
        (by decide) (by decide) rfl⟩,
    ⟨by decide,
      (forwarder_return_deletes (demoEnv true true false) demoEstablished demoClient
        0).2.2.2.2.2 demoSocket [7] "sendto: failed" [] (by decide) (by decide)⟩⟩

theorem applyNextUpstream_failed (env : Env) (c : Conn)
    (h : (c.applyNextUpstream env).1 ≠ none) : (c.applyNextUpstream env).2.1 = c := by
  rcases applyNextUpstream_cases env c with ⟨err, he⟩ | ⟨s, _, he⟩
  · rw [he]
  · rw [he] at h
    exact absurd rfl h

theorem Write_not_established (env : Env) (c : Conn) (data : List Byte)
    (h : c.upstreamConn = none) : (c.Write env data).1 = some errNotEstablished := by
  simp [Conn.Write, Conn.socket, h]

theorem call_keeps_unestablished (c : Conn) (call : Call) (h : c.upstreamConn = none)
    (hfail : ∀ env, call = Call.applyNextUpstream env → (c.call call).1 ≠ none) :
    (c.call call).2.upstreamConn = none := by
  cases call with
  | SetNextUpstream upstream => simpa [Conn.call, Conn.SetNextUpstream] using h
  | Stop => exact Stop_upstreamConn c
  | Read sock =>
    simp only [Conn.call]
    split <;> exact h
  | Write env data => exact h
  | applyNextUpstream env =>
    have := hfail env rfl
    simp only [Conn.call] at this ⊢
    rw [applyNextUpstream_failed env c this]
    exact h

theorem calls_keep_unestablished :
    ∀ (calls : List Call) (c : Conn), c.upstreamConn = none →
      (∀ env r, (Call.applyNextUpstream env, r) ∈ (c.calls calls).1 → r ≠ none) →
      (∀ env data r, (Call.Write env data, r) ∈ (c.calls calls).1 →
          r = some errNotEstablished)
        ∧ (c.calls calls).2.upstreamConn = none := by
  intro calls
  induction calls with
  | nil =>
    intro c h _
    exact ⟨fun _ _ _ hmem => by simp [Conn.calls] at hmem, h⟩
  | cons call rest ih =>
    intro c h hfail
    have hstep : (c.call call).2.upstreamConn = none := by
      apply call_keeps_unestablished c call h
      intro env hcall
      apply hfail env
      simp only [Conn.calls, hcall]
      exact List.mem_cons_self _ _
    have hrest := ih (c.call call).2 hstep (by
      intro env r hmem
      apply hfail env r
      simp only [Conn.calls]
      exact List.mem_cons_of_mem _ hmem)
    refine ⟨?_, ?_⟩
    · intro env data r hmem
      simp only [Conn.calls, List.mem_cons] at hmem
      rcases hmem with heq | hmem
      · have h1 := (Prod.mk.inj heq).1
        have h2 := (Prod.mk.inj heq).2
        subst h1
        rw [h2]
        exact Write_not_established env c data h
      · exact hrest.1 env data r hmem
    · simp only [Conn.calls]
      exact hrest.2

/-- C10. When `applyNextUpstream` fails to dial, at the creation of a
connection in `process` or in the forwarder after a failed read, the
connection has no upstream socket afterwards; and from a connection without
socket, through any sequence of calls of its methods in which no
`applyNextUpstream` succeeds, every `Write` fails with the not-established
error and the connection still has no socket at the end. -/
theorem failed_dial_leaves_unestablished :
    (∀ (env : Env) (m : Mux) (client : UDPAddr),
      (m.connFor env client).1 ≠ none →
        ((m.connFor env client).2.1.objs (m.connFor env client).2.2.1).upstreamConn = none
          ∧ ∀ env1 data, (((m.connFor env client).2.1.objs
              (m.connFor env client).2.2.1).Write env1 data).1 = some errNotEstablished)
    ∧ (∀ (env : Env) (c : Conn) (e : Error) (X : UDPAddr) (de : Error),
      c.nextUpstream = some X → env.dial X = .error de →
        (c.afterRead env (.error e)).1 = Round.returned de
          ∧ (c.afterRead env (.error e)).2.1.upstreamConn = none
          ∧ ∀ env1 data, ((c.afterRead env (.error e)).2.1.Write env1 data).1
              = some errNotEstablished)
    ∧ (∀ (calls : List Call) (c : Conn), c.upstreamConn = none →
      (∀ env r, (Call.applyNextUpstream env, r) ∈ (c.calls calls).1 → r ≠ none) →
      (∀ env data r, (Call.Write env data, r) ∈ (c.calls calls).1 →
          r = some errNotEstablished)
        ∧ (c.calls calls).2.upstreamConn = none) := by
  refine ⟨?_, ?_, calls_keep_unestablished⟩
  · intro env m client h
    have hnone : ((m.connFor env client).2.1.objs (m.connFor env client).2.2.1).upstreamConn
        = none := by
      simp only [Mux.connFor] at h ⊢
      cases hf : m.FindConnectionByClient client with
      | some conn => rw [hf] at h; simp at h
      | none =>
        rw [hf] at h
        simp only at h ⊢
        rcases applyNextUpstream_cases env ((m.newConn client).1.objs (m.newConn client).2) with
          ⟨err, he⟩ | ⟨s, _, he⟩
        · rw [he]
          simp [Mux.newConn, Mux.store, Mux.setConnection]
        · rw [he] at h
          simp at h
    exact ⟨hnone, fun env1 data => Write_not_established env1 _ data hnone⟩
  · intro env c e X de hn hd
    have h3 : (c.afterRead env (.error e)).1 = Round.returned de
        ∧ (c.afterRead env (.error e)).2.1.upstreamConn = none := by
      simp only [Conn.afterRead, Conn.Stop]
      cases hs : c.upstreamConn <;>
        simp [Conn.NextUpstream, hn, Conn.applyNextUpstream, DialUDP, hd, hs]
    exact ⟨h3.1, h3.2, fun env1 data => Write_not_established env1 _ data h3.2⟩

/-- C10 at concrete inputs: the dial for the first datagram of `demoClient`
fails; the dial of the forwarder for a pending upstream fails; and a
connection without socket goes through a write, a new pending upstream, a
failed `applyNextUpstream`, a stop and another write. -/
theorem failed_dial_leaves_unestablished_witness :
    ((demoMux.connFor (demoEnv false true true) demoClient).1 ≠ none
      ∧ ((demoMux.connFor (demoEnv false true true) demoClient).2.1.objs
          (demoMux.connFor (demoEnv false true true) demoClient).2.2.1).upstreamConn = none)
    ∧ (((demoEstablished.objs 0).SetNextUpstream (some demoOther)).nextUpstream
          = some demoOther
      ∧ (demoEnv false true true).dial demoOther = .error "dial udp: connect failed"
      ∧ (((demoEstablished.objs 0).SetNextUpstream (some demoOther)).afterRead
          (demoEnv false true true) (.error "closed")).2.1.upstreamConn = none)
    ∧ ((demoMux.objs 0).upstreamConn = none
      ∧ ((demoMux.objs 0).calls
          [Call.Write (demoEnv true true true) [1], Call.SetNextUpstream (some demoOther),
            Call.applyNextUpstream (demoEnv false true true), Call.Stop,
            Call.Write (demoEnv true true true) [2]]).2.upstreamConn = none) :=
  ⟨⟨by decide,
      (failed_dial_leaves_unestablished.1 (demoEnv false true true) demoMux demoClient
        (by decide)).1⟩,
    ⟨by decide, rfl,
      (failed_dial_leaves_unestablished.2.1 (demoEnv false true true)
        ((demoEstablished.objs 0).SetNextUpstream (some demoOther)) "closed" demoOther
        "dial udp: connect failed" (by decide) rfl).2.1⟩,
    ⟨by decide,
      (failed_dial_leaves_unestablished.2.2
        [Call.Write (demoEnv true true true) [1], Call.SetNextUpstream (some demoOther),
          Call.applyNextUpstream (demoEnv false true true), Call.Stop,
          Call.Write (demoEnv true true true) [2]]
        (demoMux.objs 0) (by decide)
        (by
          intro env r hmem
          simp only [Conn.calls, Conn.call, List.mem_cons, Prod.mk.injEq, reduceCtorEq,
            false_and, false_or, List.mem_nil_iff, or_false] at hmem
          rw [hmem.2]
          decide)).2⟩⟩

theorem racing_workers_general (m : Mux) (client : UDPAddr)
    (h : m.FindConnectionByClient client = none) :
    (m.runWorkers client [0, 1, 0, 1] [.start, .start]).2
        = [.holds m.nobjs, .holds (m.nobjs + 1)]
    ∧ (m.runWorkers client [0, 1, 0, 1] [.start, .start]).1.nobjs = m.nobjs + 2
    ∧ (m.runWorkers client [0, 1, 0, 1] [.start, .start]).1.FindConnectionByClient client
        = some (m.nobjs + 1) := by
  have h1 : m.conns (makeUDPAddrKey client) = none := h
  simp [Mux.runWorkers, Mux.workerStep, h1, Mux.newConn, Mux.setConnection, Mux.store,
    Mux.FindConnectionByClient]

/-- C4 (the code departs from the claim). Two workers receive a first
datagram from `demoClient`, which has no connection. When both look the
client up before either inserts (schedule 0, 1, 0, 1), each finds nothing and
each creates and registers a `Conn`: two objects exist, each worker holds its
own, and the table keeps the second. When the workers run one after the other
(schedule 0, 0, 1, 1) a single `Conn` is created. -/
theorem racing_workers_create_two :
    demoMux.FindConnectionByClient demoClient = none
    ∧ (demoMux.runWorkers demoClient [0, 1, 0, 1] [.start, .start]).2 = [.holds 0, .holds 1]
    ∧ (demoMux.runWorkers demoClient [0, 1, 0, 1] [.start, .start]).1.nobjs = 2
    ∧ (demoMux.runWorkers demoClient [0, 1, 0, 1] [.start, .start]).1.FindConnectionByClient
        demoClient = some 1
    ∧ (demoMux.runWorkers demoClient [0, 0, 1, 1] [.start, .start]).2 = [.holds 0, .holds 0]
    ∧ (demoMux.runWorkers demoClient [0, 0, 1, 1] [.start, .start]).1.nobjs = 1 := by
  decide

theorem runChain_quiet (conn : Nat) :
    ∀ (chain : List HandlerFunc) (m : Mux),
      (∀ h ∈ chain, ∀ c, (h.run c).upstreamConn = c.upstreamConn
        ∧ (h.run c).nextUpstream = c.nextUpstream) →
      ((m.runChain conn chain).1.objs conn).upstreamConn = (m.objs conn).upstreamConn
        ∧ ((m.runChain conn chain).1.objs conn).nextUpstream = (m.objs conn).nextUpstream
        ∧ (m.runChain conn chain).1.conns = m.conns := by
  intro chain
  induction chain with
  | nil => intro m _; exact ⟨rfl, rfl, rfl⟩
  | cons h rest ih =>
    intro m hq
    have hrest := ih (m.store conn (h.run (m.objs conn)))
      (fun h' hmem => hq h' (List.mem_cons_of_mem _ hmem))
    have hh := hq h (List.mem_cons_self _ _) (m.objs conn)
    simp only [Mux.runChain]
    rw [store_objs_same] at hrest
    exact ⟨hrest.1.trans hh.1, hrest.2.1.trans hh.2, hrest.2.2⟩

theorem classify_marker_fields (m : Mux) (conn : Nat) (r : Reader)
    (hq : ∀ h ∈ m.getchallengeChains, ∀ c, (h.run c).upstreamConn = c.upstreamConn
      ∧ (h.run c).nextUpstream = c.nextUpstream) :
    (m.classify conn r 0xffffffff).1.isConnectionless = true
      ∧ ((m.classify conn r 0xffffffff).2.1.objs conn).upstreamConn = (m.objs conn).upstreamConn
      ∧ ((m.classify conn r 0xffffffff).2.1.objs conn).nextUpstream
          = (m.objs conn).nextUpstream
      ∧ (m.classify conn r 0xffffffff).2.1.conns = m.conns := by
  have hrun := runChain_quiet conn m.getchallengeChains m hq
  simp only [Mux.classify, if_true]
  split
  · exact ⟨rfl, hrun.1, hrun.2.1, hrun.2.2⟩
  · exact ⟨rfl, rfl, rfl, rfl⟩

theorem migrate_due (env : Env) (m : Mux) (conn : Nat) (old : UDPConn) (X : UDPAddr)
    (hold : (m.objs conn).upstreamConn = some old) (hn : (m.objs conn).nextUpstream = some X)
    (hdiff : env.addrString old.raddr ≠ env.addrString X) :
    (m.migrate env conn true).2 = [Event.closed old]
      ∧ ((m.migrate env conn true).1.objs conn).upstreamConn = none
      ∧ ((m.migrate env conn true).1.objs conn).nextUpstream = some X
      ∧ (m.migrate env conn true).1.conns = m.conns := by
  have hsu : (m.objs conn).shouldUpdate env = true := by
    simp [Conn.shouldUpdate, Conn.NextUpstream, Conn.Upstream, Conn.socket, hold, hn, hdiff]
  simp [Mux.migrate, hsu, Conn.Stop, hold, Mux.store, hn]

theorem relay_unestablished_state (env : Env) (m : Mux) (conn : Nat) (pkt : List Byte)
    (hs : (m.objs conn).upstreamConn = none) :
    ((m.relay env conn pkt).2.1.objs conn).upstreamConn = none
      ∧ ((m.relay env conn pkt).2.1.objs conn).nextUpstream = (m.objs conn).nextUpstream
      ∧ (m.relay env conn pkt).2.1.conns = m.conns := by
  simp [Mux.relay, Conn.Write, Conn.socket, hs, Conn.Stop, Mux.store]

/-- The lines of `process` before the write, for a connectionless datagram
of a client whose connection has the socket `old` and the pending upstream
`X`, which prints differently from the remote address of `old`. -/
theorem processHead_migrating (env : Env) (m : Mux) (client X : UDPAddr) (conn : Nat)
    (old : UDPConn) (pkt : List Byte)
    (hfind : m.FindConnectionByClient client = some conn)
    (hold : (m.objs conn).upstreamConn = some old)
    (hn : (m.objs conn).nextUpstream = some X)
    (hdiff : env.addrString old.raddr ≠ env.addrString X)
    (hlen : 4 ≤ pkt.length) (hmark : LittleEndian.Uint32 pkt = 0xffffffff)
    (hquiet : ∀ h ∈ m.getchallengeChains, ∀ c, (h.run c).upstreamConn = c.upstreamConn
      ∧ (h.run c).nextUpstream = c.nextUpstream) :
    (m.processHead env pkt client).err = none
      ∧ (m.processHead env pkt client).conn = some conn
      ∧ Event.closed old ∈ (m.processHead env pkt client).events
      ∧ ((m.processHead env pkt client).mux.objs conn).upstreamConn = none
      ∧ ((m.processHead env pkt client).mux.objs conn).nextUpstream = some X
      ∧ (m.processHead env pkt client).mux.FindConnectionByClient client = some conn := by
  rw [processHead_eq env m pkt client hlen, connFor_found env m client conn hfind, hmark]
  simp only
  obtain ⟨hc1, hc2, hc3, hc4⟩ := classify_marker_fields m conn
    { buffered := pkt.take defaultBufSize, src := pkt.drop defaultBufSize } hquiet
  rcases hcl : m.classify conn
    { buffered := pkt.take defaultBufSize, src := pkt.drop defaultBufSize } 0xffffffff with
    ⟨cls, m2, ev2⟩
  rw [hcl] at hc1 hc2 hc3 hc4
  simp only at hc1 hc2 hc3 hc4 ⊢
  rw [hc1]
  obtain ⟨hg1, hg2, hg3, hg4⟩ := migrate_due env m2 conn old X (hc2.trans hold) (hc3.trans hn)
    hdiff
  rcases hmg : m2.migrate env conn true with ⟨m3, ev3⟩
  rw [hmg] at hg1 hg2 hg3 hg4
  simp only at hg1 hg2 hg3 hg4 ⊢
  refine ⟨trivial, trivial, ?_, hg2, hg3, ?_⟩
  · rw [hg1]
    simp
  · simp only [Mux.FindConnectionByClient] at hfind ⊢
    rw [hg4, hc4]
    exact hfind

theorem process_migrating (env : Env) (m : Mux) (client X : UDPAddr) (conn : Nat)
    (old : UDPConn) (pkt : List Byte)
    (hfind : m.FindConnectionByClient client = some conn)
    (hold : (m.objs conn).upstreamConn = some old)
    (hn : (m.objs conn).nextUpstream = some X)
    (hdiff : env.addrString old.raddr ≠ env.addrString X)
    (hlen : 4 ≤ pkt.length) (hmark : LittleEndian.Uint32 pkt = 0xffffffff)
    (hquiet : ∀ h ∈ m.getchallengeChains, ∀ c, (h.run c).upstreamConn = c.upstreamConn
      ∧ (h.run c).nextUpstream = c.nextUpstream) :
    (m.process env (.ok (pkt, client))).err = none
      ∧ Event.closed old ∈ (m.process env (.ok (pkt, client))).events
      ∧ ((m.process env (.ok (pkt, client))).mux.objs conn).upstreamConn = none
      ∧ ((m.process env (.ok (pkt, client))).mux.objs conn).nextUpstream = some X
      ∧ (m.process env (.ok (pkt, client))).mux.FindConnectionByClient client = some conn := by
  obtain ⟨h1, h2, h3, h4, h5, h6⟩ := processHead_migrating env m client X conn old pkt hfind hold
    hn hdiff hlen hmark hquiet
  obtain ⟨r1, r2, r3⟩ := relay_unestablished_state env (m.processHead env pkt client).mux conn
    pkt h4
  simp only [Mux.process, Mux.processTail, h1, h2]
  refine ⟨trivial, List.mem_append_left _ h3, r1, r2.trans h5, ?_⟩
  simp only [Mux.FindConnectionByClient] at h6 ⊢
  rw [r3]
  exact h6

/-- The forwarder, blocked in its read, when the read fails on a connection
that has no socket any more and the pending upstream `X`, the dial to `X`
yielding `sX`: it installs `sX`, clears the pending upstream, and goes on
with the loop; a datagram it then reads is sent to the client. -/
theorem forwarderResumed_redials (env : Env) (m : Mux) (client X : UDPAddr) (conn : Nat)
    (sX : UDPConn) (rerr : Error)
    (hnone : (m.objs conn).upstreamConn = none) (hn : (m.objs conn).nextUpstream = some X)
    (hdial : env.dial X = .ok sX) :
    (m.forwarderResumed env client conn (.error rerr) []).1 = none
      ∧ (m.forwarderResumed env client conn (.error rerr) []).2.2
        = [Event.dialed (some X) true]
      ∧ ((m.forwarderResumed env client conn (.error rerr) []).2.1.objs conn).upstreamConn
        = some sX
      ∧ ((m.forwarderResumed env client conn (.error rerr) []).2.1.objs conn).nextUpstream
        = none
      ∧ (m.forwarderResumed env client conn (.error rerr) []).2.1.conns = m.conns
      ∧ (∀ data, env.send data (m.objs conn).client = none →
        (m.forwarderResumed env client conn (.error rerr) [.ok data]).1 = none
          ∧ (m.forwarderResumed env client conn (.error rerr) [.ok data]).2.2
            = [Event.dialed (some X) true, Event.sent data (m.objs conn).client true]) := by
  have ha : (m.objs conn).afterRead env (.error rerr)
      = (Round.again,
          { (m.objs conn) with upstreamConn := some sX, nextUpstream := none },
          [Event.dialed (some X) true]) := by
    simp [Conn.afterRead, Conn.Stop, hnone, Conn.NextUpstream, hn, Conn.applyNextUpstream,
      DialUDP, hdial]
  have h0 : (m.objs conn).RunForwardResumed env (.error rerr) []
      = (none, { (m.objs conn) with upstreamConn := some sX, nextUpstream := none },
          [Event.dialed (some X) true]) := by
    simp only [Conn.RunForwardResumed]
    rw [ha]
    simp [Conn.RunForward, Conn.Upstream, Conn.socket]
  have h1 : ∀ data, env.send data (m.objs conn).client = none →
      (m.objs conn).RunForwardResumed env (.error rerr) [.ok data]
        = (none, { (m.objs conn) with upstreamConn := some sX, nextUpstream := none },
            [Event.dialed (some X) true, Event.sent data (m.objs conn).client true]) := by
    intro data hsend
    simp only [Conn.RunForwardResumed]
    rw [ha]
    simp [Conn.RunForward, Conn.round, Conn.Read, Conn.afterRead, Conn.Upstream, Conn.socket,
      hsend]
  refine ⟨?_, ?_, ?_, ?_, ?_, ?_⟩
  · simp only [Mux.forwarderResumed, h0]
  · simp only [Mux.forwarderResumed, h0]
  · simp only [Mux.forwarderResumed, h0, store_objs_same]
  · simp only [Mux.forwarderResumed, h0, store_objs_same]
  · simp only [Mux.forwarderResumed, h0, Mux.store]
  · intro data hsend
    simp only [Mux.forwarderResumed, h1 data hsend, and_self]

theorem marker_length (pkt : List Byte) (hmark : LittleEndian.Uint32 pkt = 0xffffffff) :
    4 ≤ pkt.length := by
  by_contra hlt
  have h3 : pkt.getD 3 0 = 0 := List.getD_eq_default _ _ (by omega)
  have h0 := (pkt.getD 0 0).isLt
  have h1 := (pkt.getD 1 0).isLt
  have h2 := (pkt.getD 2 0).isLt
  simp only [LittleEndian.Uint32, h3] at hmark
  simp only [Fin.val_zero] at hmark
  omega

theorem RunForward_cons (env : Env) (c : Conn) (sock : Except Error (List Byte))
    (socks : List (Except Error (List Byte))) :
    c.RunForward env (sock :: socks)
      = if c.Upstream ≠ none then c.RunForwardResumed env (c.Read sock) socks
        else (some "no upstream candidates available", c, []) := by
  by_cases hu : c.Upstream = none
  · simp [Conn.RunForward, Conn.round, hu]
  · simp only [Conn.RunForward, Conn.round, Conn.RunForwardResumed, ne_eq, hu,
      not_false_eq_true, if_true]

/-- C5, as stated, fails. The connection of `demoClient` has the socket
`demoSocket` to `demoUpstream` and is given the pending upstream `demoOther`.
When the dial to `demoOther` fails: `process` closes `demoSocket` on the next
connectionless datagram, the forwarder's read fails, the dial fails, the
forwarder returns its error and the connection is deleted, without upstream
socket and with the pending upstream still set. When a getchallenge handler
withdraws the pending upstream: on the next getchallenge datagram `process`
closes nothing and writes the datagram to `demoSocket`, which stays the
socket of the connection. When the forwarder is not blocked in its read but
at the head of its loop after `process` has closed `demoSocket`: it finds no
socket and returns without a dial, and the connection is deleted with the
pending upstream still set. -/
theorem migration_stopped_by_dial_or_handler :
    demoEstablished.FindConnectionByClient demoClient = some 0
    ∧ (demoEstablished.objs 0).upstreamConn = some demoSocket
    ∧ (demoEnv false true true).addrString demoSocket.raddr
        ≠ (demoEnv false true true).addrString demoOther
    ∧ Event.closed demoSocket
        ∈ ((demoEstablished.SetNextUpstream 0 (some demoOther)).process
            (demoEnv false true true) (.ok (getchallengePkt, demoClient))).events
    ∧ (((demoEstablished.SetNextUpstream 0 (some demoOther)).process
          (demoEnv false true true) (.ok (getchallengePkt, demoClient))).mux.forwarderResumed
            (demoEnv false true true) demoClient 0 (.error "closed") []).1
        = some "dial udp: connect failed"
    ∧ ((((demoEstablished.SetNextUpstream 0 (some demoOther)).process
          (demoEnv false true true) (.ok (getchallengePkt, demoClient))).mux.forwarderResumed
            (demoEnv false true true) demoClient 0 (.error "closed") []).2.1.objs
              0).upstreamConn = none
    ∧ ((((demoEstablished.SetNextUpstream 0 (some demoOther)).process
          (demoEnv false true true) (.ok (getchallengePkt, demoClient))).mux.forwarderResumed
            (demoEnv false true true) demoClient 0 (.error "closed") []).2.1.objs
              0).nextUpstream = some demoOther
    ∧ (((demoEstablished.SetNextUpstream 0 (some demoOther)).process
          (demoEnv false true true) (.ok (getchallengePkt, demoClient))).mux.forwarderResumed
            (demoEnv false true true) demoClient 0 (.error "closed")
              []).2.1.FindConnectionByClient demoClient = none
    ∧ ((demoCancelling.SetNextUpstream 0 (some demoOther)).process (demoEnv true true true)
        (.ok (getchallengeSteamPkt, demoClient))).events
        = [Event.handled 1 0, Event.handled 2 0, Event.handled 3 0,
            Event.wrote demoSocket getchallengeSteamPkt true]
    ∧ (((demoCancelling.SetNextUpstream 0 (some demoOther)).process (demoEnv true true true)
        (.ok (getchallengeSteamPkt, demoClient))).mux.objs 0).upstreamConn = some demoSocket
    ∧ (((demoCancelling.SetNextUpstream 0 (some demoOther)).process (demoEnv true true true)
        (.ok (getchallengeSteamPkt, demoClient))).mux.objs 0).nextUpstream = none
    ∧ (((demoEstablished.SetNextUpstream 0 (some demoOther)).process
          (demoEnv true true true) (.ok (getchallengePkt, demoClient))).mux.forwarder
            (demoEnv true true true) demoClient 0 []).1
        = some "no upstream candidates available"
    ∧ (((demoEstablished.SetNextUpstream 0 (some demoOther)).process
          (demoEnv true true true) (.ok (getchallengePkt, demoClient))).mux.forwarder
            (demoEnv true true true) demoClient 0 []).2.2 = []
    ∧ ((((demoEstablished.SetNextUpstream 0 (some demoOther)).process
          (demoEnv true true true) (.ok (getchallengePkt, demoClient))).mux.forwarder
            (demoEnv true true true) demoClient 0 []).2.1.objs 0).upstreamConn = none
    ∧ ((((demoEstablished.SetNextUpstream 0 (some demoOther)).process
          (demoEnv true true true) (.ok (getchallengePkt, demoClient))).mux.forwarder
            (demoEnv true true true) demoClient 0 []).2.1.objs 0).nextUpstream
        = some demoOther
    ∧ (((demoEstablished.SetNextUpstream 0 (some demoOther)).process
          (demoEnv true true true) (.ok (getchallengePkt, demoClient))).mux.forwarder
            (demoEnv true true true) demoClient 0 []).2.1.FindConnectionByClient demoClient
        = none := by
  decide

/-- C5, amended. A connection in the table with a socket `old` whose remote
address prints differently from `X` is given the pending upstream `X`, and
its client sends a connectionless datagram `pkt`; no getchallenge handler
touches the socket or the pending upstream of the connection, the forwarder
is blocked in its read on `old`, and the dial to `X` yields the socket `sX`.
`process` closes `old` and clears the socket of the connection
(mux.go:199). The forwarder's read then fails, and the forwarder dials `X`,
installs `sX`, clears the pending upstream and goes on with its loop, the
connection staying in the table: the upstream socket is `sX` and the pending
upstream is absent. This holds when the forwarder takes up the failed read
after `process` has returned, the connection being without socket in between
and a datagram read next from `sX` going to the client; and when it takes it
up before `process` turns to its write (mux.go:202), which then writes `pkt`
on `sX`. -/
theorem migration_on_connectionless (env : Env) (m : Mux) (client X : UDPAddr) (conn : Nat)
    (old sX : UDPConn) (pkt : List Byte) (rerr : Error)
    (hfind : m.FindConnectionByClient client = some conn)
    (hold : (m.objs conn).upstreamConn = some old)
    (hdiff : env.addrString old.raddr ≠ env.addrString X)
    (hmark : LittleEndian.Uint32 pkt = 0xffffffff)
    (hquiet : ∀ h ∈ m.getchallengeChains, ∀ c, (h.run c).upstreamConn = c.upstreamConn
      ∧ (h.run c).nextUpstream = c.nextUpstream)
    (hdial : env.dial X = .ok sX) :
    (Event.closed old
        ∈ ((m.SetNextUpstream conn (some X)).process env (.ok (pkt, client))).events
      ∧ (((m.SetNextUpstream conn (some X)).process env
          (.ok (pkt, client))).mux.objs conn).upstreamConn = none
      ∧ (((m.SetNextUpstream conn (some X)).process env
          (.ok (pkt, client))).mux.forwarderResumed env client conn (.error rerr) []).1 = none
      ∧ (((m.SetNextUpstream conn (some X)).process env
          (.ok (pkt, client))).mux.forwarderResumed env client conn (.error rerr) []).2.2
          = [Event.dialed (some X) true]
      ∧ ((((m.SetNextUpstream conn (some X)).process env
          (.ok (pkt, client))).mux.forwarderResumed env client conn (.error rerr)
            []).2.1.objs conn).upstreamConn = some sX
      ∧ ((((m.SetNextUpstream conn (some X)).process env
          (.ok (pkt, client))).mux.forwarderResumed env client conn (.error rerr)
            []).2.1.objs conn).nextUpstream = none
      ∧ (((m.SetNextUpstream conn (some X)).process env
          (.ok (pkt, client))).mux.forwarderResumed env client conn (.error rerr)
            []).2.1.FindConnectionByClient client = some conn
      ∧ (∀ data,
          env.send data (((m.SetNextUpstream conn (some X)).process env
            (.ok (pkt, client))).mux.objs conn).client = none →
          (((m.SetNextUpstream conn (some X)).process env
            (.ok (pkt, client))).mux.forwarderResumed env client conn (.error rerr)
              [.ok data]).2.2
            = [Event.dialed (some X) true,
                Event.sent data (((m.SetNextUpstream conn (some X)).process env
                  (.ok (pkt, client))).mux.objs conn).client true]))
    ∧ (Event.closed old
        ∈ ((m.SetNextUpstream conn (some X)).processHead env pkt client).events
      ∧ (((m.SetNextUpstream conn (some X)).processHead env pkt
          client).mux.objs conn).upstreamConn = none
      ∧ (((m.SetNextUpstream conn (some X)).processHead env pkt
          client).mux.forwarderResumed env client conn (.error rerr) []).1 = none
      ∧ ((((m.SetNextUpstream conn (some X)).processHead env pkt
          client).mux.forwarderResumed env client conn (.error rerr)
            []).2.1.objs conn).upstreamConn = some sX
      ∧ ((((m.SetNextUpstream conn (some X)).processHead env pkt
          client).mux.forwarderResumed env client conn (.error rerr)
            []).2.1.objs conn).nextUpstream = none
      ∧ (((m.SetNextUpstream conn (some X)).processHead env pkt
          client).mux.forwarderResumed env client conn (.error rerr)
            []).2.1.FindConnectionByClient client = some conn
      ∧ (Mux.processTail env pkt
          { ((m.SetNextUpstream conn (some X)).processHead env pkt client) with
            mux := (((m.SetNextUpstream conn (some X)).processHead env pkt
              client).mux.forwarderResumed env client conn (.error rerr) []).2.1 }).err
          = none
      ∧ (Mux.processTail env pkt
          { ((m.SetNextUpstream conn (some X)).processHead env pkt client) with
            mux := (((m.SetNextUpstream conn (some X)).processHead env pkt
              client).mux.forwarderResumed env client conn (.error rerr) []).2.1 }).written
          = some (env.write sX pkt)
      ∧ (Mux.processTail env pkt
          { ((m.SetNextUpstream conn (some X)).processHead env pkt client) with
            mux := (((m.SetNextUpstream conn (some X)).processHead env pkt
              client).mux.forwarderResumed env client conn (.error rerr) []).2.1 }).events
          = ((m.SetNextUpstream conn (some X)).processHead env pkt client).events
              ++ Event.wrote sX pkt (env.write sX pkt).isNone
                :: (if env.write sX pkt = none then [] else [Event.closed sX])) := by
  have hlen := marker_length pkt hmark
  generalize hm0 : m.SetNextUpstream conn (some X) = m0
  have hfind0 : m0.FindConnectionByClient client = some conn := by
    rw [← hm0]; exact hfind
  have hold0 : (m0.objs conn).upstreamConn = some old := by
    rw [← hm0, Mux.SetNextUpstream, store_objs_same]; exact hold
  have hn0 : (m0.objs conn).nextUpstream = some X := by
    rw [← hm0, Mux.SetNextUpstream, store_objs_same]; rfl
  have hq0 : ∀ h ∈ m0.getchallengeChains, ∀ c, (h.run c).upstreamConn = c.upstreamConn
      ∧ (h.run c).nextUpstream = c.nextUpstream := by
    rw [← hm0]; exact hquiet
  constructor
  · obtain ⟨_, p2, p3, p4, p5⟩ := process_migrating env m0 client X conn old pkt hfind0 hold0
      hn0 hdiff hlen hmark hq0
    obtain ⟨f1, f2, f3, f4, f5, f6⟩ := forwarderResumed_redials env
      (m0.process env (.ok (pkt, client))).mux client X conn sX rerr p3 p4 hdial
    refine ⟨p2, p3, f1, f2, f3, f4, ?_, fun data hsend => (f6 data hsend).2⟩
    simp only [Mux.FindConnectionByClient] at p5 ⊢
    rw [f5]
    exact p5
  · obtain ⟨h1, h2, h3, h4, h5, h6⟩ := processHead_migrating env m0 client X conn old pkt
      hfind0 hold0 hn0 hdiff hlen hmark hq0
    obtain ⟨f1, _, f3, f4, f5, _⟩ := forwarderResumed_redials env
      (m0.processHead env pkt client).mux client X conn sX rerr h4 h5 hdial
    obtain ⟨r1, r2⟩ := relay_socket env
      ((m0.processHead env pkt client).mux.forwarderResumed env client conn (.error rerr)
        []).2.1 conn pkt sX f3
    refine ⟨h3, h4, f1, f3, f4, ?_, ?_, ?_, ?_⟩
    · simp only [Mux.FindConnectionByClient] at h6 ⊢
      rw [f5]
      exact h6
    · simp only [Mux.processTail, h1, h2]
    · simp only [Mux.processTail, h1, h2, r1]
    · simp only [Mux.processTail, h1, h2, r2]

/-- C5, amended, at a concrete input: the connection of `demoClient`, with
the socket `demoSocket` to `demoUpstream`, is given the pending upstream
`demoOther` and moved there by the datagram `getchallengePkt`, in both
orders of the forwarder and the write of `process`. -/
theorem migration_on_connectionless_witness :
    (demoEstablished.FindConnectionByClient demoClient = some 0
      ∧ (demoEstablished.objs 0).upstreamConn = some demoSocket
      ∧ (demoEnv true true true).addrString demoSocket.raddr
          ≠ (demoEnv true true true).addrString demoOther
      ∧ LittleEndian.Uint32 getchallengePkt = 0xffffffff
      ∧ (demoEnv true true true).dial demoOther = .ok demoOtherSocket)
    ∧ (Event.closed demoSocket
        ∈ ((demoEstablished.SetNextUpstream 0 (some demoOther)).process
            (demoEnv true true true) (.ok (getchallengePkt, demoClient))).events
      ∧ ((((demoEstablished.SetNextUpstream 0 (some demoOther)).process
            (demoEnv true true true) (.ok (getchallengePkt, demoClient))).mux.forwarderResumed
              (demoEnv true true true) demoClient 0 (.error "closed") []).2.1.objs
                0).upstreamConn = some demoOtherSocket
      ∧ ((((demoEstablished.SetNextUpstream 0 (some demoOther)).process
            (demoEnv true true true) (.ok (getchallengePkt, demoClient))).mux.forwarderResumed
              (demoEnv true true true) demoClient 0 (.error "closed") []).2.1.objs
                0).nextUpstream = none
      ∧ (((demoEstablished.SetNextUpstream 0 (some demoOther)).process
            (demoEnv true true true) (.ok (getchallengePkt, demoClient))).mux.forwarderResumed
              (demoEnv true true true) demoClient 0 (.error "closed") [.ok [7]]).2.2
          = [Event.dialed (some demoOther) true, Event.sent [7] demoClient true])
    ∧ ((Mux.processTail (demoEnv true true true) getchallengePkt
          { ((demoEstablished.SetNextUpstream 0 (some demoOther)).processHead
              (demoEnv true true true) getchallengePkt demoClient) with
            mux := (((demoEstablished.SetNextUpstream 0 (some demoOther)).processHead
              (demoEnv true true true) getchallengePkt demoClient).mux.forwarderResumed
                (demoEnv true true true) demoClient 0 (.error "closed") []).2.1 }).events
        = [Event.closed demoSocket, Event.wrote demoOtherSocket getchallengePkt true]) :=
  have h := migration_on_connectionless (demoEnv true true true) demoEstablished demoClient
    demoOther 0 demoSocket demoOtherSocket getchallengePkt "closed" (by decide) (by decide)
    (by decide) (by decide)
    (by
      intro h hmem c
      have hm : h ∈ ([⟨1, fun c => c⟩, ⟨2, fun c => c⟩] : List HandlerFunc) := hmem
      simp only [List.mem_cons, List.mem_singleton, List.mem_nil_iff, or_false] at hm
      rcases hm with rfl | rfl <;> exact ⟨rfl, rfl⟩)
    rfl
  ⟨⟨by decide, by decide, by decide, by decide, rfl⟩,
    ⟨h.1.1, h.1.2.2.2.2.1, h.1.2.2.2.2.2.1,
      (h.1.2.2.2.2.2.2.2 [7] (by decide)).trans (by decide)⟩,
    h.2.2.2.2.2.2.2.2.2.trans (by decide)⟩

end Hlmux
